import Mathlib

/-!
Verification of the classSitTable seating-chart engine.

The data model and every operation below are shallow embeddings of the
TypeScript sources (`src/types.ts`, `src/lib/classroom.ts`, `src/lib/storage.ts`).
JavaScript numbers that only ever hold integers are modelled as `Int` where the
code stores them in state (so that arbitrary JSON numbers remain representable)
and as `Nat` where the code derives them (lengths, capacities).  The host-supplied
sources of nondeterminism (`crypto.randomUUID`, `Date.now`, `Math.random`,
`Date` parsing) are passed in as explicit parameters.
-/

namespace CST

/-- `LayoutMode` from types.ts: closed enumeration of the three layouts. -/
inductive LayoutMode where
  | GROUPS
  | THREE_ROWS
  | ARC
deriving DecidableEq, Repr

/-- `TimeMode` from types.ts. -/
inductive TimeMode where
  | weekday
  | weekend
deriving DecidableEq, Repr

/-- `Student` from types.ts. -/
structure Student where
  id : String
  name : String
deriving DecidableEq, Repr

/-- `TimeModeConfig` from types.ts.  `rows`, `cols`, `rotationCount` are JS
numbers persisted in state, modelled as `Int`. -/
structure TimeModeConfig where
  layoutMode : LayoutMode
  rows : Int
  cols : Int
  seats : List (Option String)
  rotationCount : Int
  weekLabel : String
  classTime : String
deriving DecidableEq, Repr

/-- `Classroom` from types.ts. -/
structure Classroom where
  id : String
  name : String
  students : List Student
  campus : String
  building : String
  room : String
  sideNotes : String
  updatedAt : String
  weekday : TimeModeConfig
  weekend : TimeModeConfig
deriving DecidableEq, Repr

/-- `AppState` from types.ts. -/
structure AppState where
  version : Int
  classrooms : List Classroom
  activeClassroomId : Option String
  activeTimeMode : TimeMode
deriving DecidableEq, Repr

/-- Dynamic field access `classroom[timeMode]`. -/
def getCfg (c : Classroom) : TimeMode → TimeModeConfig
  | .weekday => c.weekday
  | .weekend => c.weekend

/-- Computed-key update `{ ...classroom, [timeMode]: cfg }`. -/
def setCfg (c : Classroom) (tm : TimeMode) (cfg : TimeModeConfig) : Classroom :=
  match tm with
  | .weekday => { c with weekday := cfg }
  | .weekend => { c with weekend := cfg }

/-- JS string truthiness: the empty string is falsy. -/
def truthyStr (s : String) : Bool := s != ""

/-- Truthiness of a `string | null` seat entry (`null` and `''` are falsy). -/
def occupiedSeat : Option String → Bool
  | some s => truthyStr s
  | none => false

/-- classroom.ts `getGroupCountBySize`.  `Math.ceil(n / 6)` on a natural is
`(n + 5) / 6`. -/
def getGroupCountBySize (studentCount : Nat) : Nat :=
  if studentCount ≤ 0 then 3
  else max 3 (min 6 ((studentCount + 5) / 6))

/-- classroom.ts `getActiveGroupIndices`: 4 groups skip index 3. -/
def getActiveGroupIndices (groupCount : Nat) : List Nat :=
  if groupCount = 4 then [0, 1, 2, 4] else List.range groupCount

/-- classroom.ts `LayoutMetrics` (derived quantities, always naturals). -/
structure LayoutMetrics where
  mode : LayoutMode
  rows : Nat
  cols : Nat
  groupCount : Nat
  capacity : Nat
deriving DecidableEq, Repr

/-- classroom.ts `getLayoutMetrics`.  `Math.ceil(basis / 3)` is `(basis + 2) / 3`. -/
def getLayoutMetrics (layoutMode : LayoutMode) (studentCount : Nat) : LayoutMetrics :=
  match layoutMode with
  | .GROUPS =>
    let groupCount := getGroupCountBySize studentCount
    { mode := .GROUPS, rows := groupCount * 3, cols := 2, groupCount
      capacity := 6 * 6 }
  | .ARC =>
    { mode := .ARC, rows := 2, cols := 18, groupCount := 0, capacity := 2 * 18 }
  | .THREE_ROWS =>
    let basis := if studentCount > 0 then studentCount else 6 * 3
    let cols := max 1 (min 12 ((basis + 2) / 3))
    { mode := .THREE_ROWS, rows := 3, cols := cols, groupCount := 0
      capacity := 3 * cols }

/-- Loop body of classroom.ts `placeCentered`: one call per iteration of the
`while` loop.  `cl`/`cr` are the JS number pointers (they may leave `[0, rowWidth)`,
hence `Int`); an iteration either places the next id on the available side or
merely toggles `useLeft` when the preferred side's pointer is exhausted. -/
def placeCenteredAux (seats : List (Option String)) (ids : List String)
    (startIndex rowWidth : Nat) (cl cr : Int) (useLeft : Bool) : List (Option String) :=
  match ids with
  | [] => seats
  | id :: rest =>
    if h : cl < 0 ∧ (rowWidth : Int) ≤ cr then seats
    else if hu : useLeft then
      if hcl : 0 ≤ cl then
        placeCenteredAux (seats.set (startIndex + cl.toNat) (some id)) rest
          startIndex rowWidth (cl - 1) cr false
      else
        placeCenteredAux seats (id :: rest) startIndex rowWidth cl cr false
    else
      if hcr : cr < (rowWidth : Int) then
        placeCenteredAux (seats.set (startIndex + cr.toNat) (some id)) rest
          startIndex rowWidth cl (cr + 1) true
      else
        placeCenteredAux seats (id :: rest) startIndex rowWidth cl cr true
termination_by
  ids.length * 2 +
    (if useLeft then (if cl < 0 then 1 else 0) else (if (rowWidth : Int) ≤ cr then 1 else 0))
decreasing_by
  all_goals simp_all
  all_goals (repeat' split) <;> omega

/-- classroom.ts `placeCentered`.  `Math.floor((rowWidth - 1) / 2)` is flooring
division on a possibly negative numerator, i.e. `Int.fdiv`. -/
def placeCentered (seats : List (Option String)) (studentIds : List String)
    (startIndex rowWidth : Nat) : List (Option String) :=
  let centerLeft : Int := ((rowWidth : Int) - 1).fdiv 2
  placeCenteredAux seats studentIds startIndex rowWidth centerLeft (centerLeft + 1) true

/-- classroom.ts `createEmptySeats`. -/
def createEmptySeats (capacity : Nat) : List (Option String) :=
  List.replicate capacity none

/-- classroom.ts `buildSeatsFromOrder`: fresh grid filled left-to-right from the
first `capacity` ids. -/
def buildSeatsFromOrder (studentIds : List String) (capacity : Nat) : List (Option String) :=
  (studentIds.take capacity).map some ++
    List.replicate (capacity - studentIds.length) none

/-- classroom.ts `getOrderedStudentIds`: occupied ids in seat order (skipping
falsy entries, ids outside the roster, and ids already seen), then remaining
roster ids in roster order.  The accumulated list doubles as the `seen` set. -/
def getOrderedStudentIds (students : List Student) (seats : List (Option String)) :
    List String :=
  let validIds := students.map (·.id)
  let fromSeats := seats.foldl (fun acc seat =>
    match seat with
    | some sid =>
      if truthyStr sid && validIds.contains sid && !acc.contains sid then acc ++ [sid] else acc
    | none => acc) ([] : List String)
  students.foldl (fun acc s => if acc.contains s.id then acc else acc ++ [s.id]) fromSeats

/-- Split a character list at every whitespace character (chunks may be empty). -/
def wsChunks (cs : List Char) : List (List Char) :=
  cs.foldr (fun c ws =>
    if c.isWhitespace then [] :: ws
    else match ws with
      | [] => [[c]]
      | w :: rest => (c :: w) :: rest) []

/-- JS `rawName.replace(/\s+/g, ' ').trim()`: collapse whitespace runs to single
spaces and trim the ends, i.e. join the non-empty whitespace-separated chunks
with single spaces. -/
def collapseWs (s : String) : String :=
  String.mk (List.intercalate [' '] ((wsChunks s.toList).filter (· ≠ [])))

/-- classroom.ts `uniqueNames`. -/
def uniqueNames (input : List String) : List String :=
  input.foldl (fun acc rawName =>
    let name := collapseWs rawName
    if name = "" then acc
    else if acc.contains name then acc
    else acc ++ [name]) []

/-- classroom.ts `createEmptyConfig`. -/
def createEmptyConfig (layoutMode : LayoutMode) (studentCount : Nat) : TimeModeConfig :=
  let metrics := getLayoutMetrics layoutMode studentCount
  { layoutMode := layoutMode
    rows := (metrics.rows : Int)
    cols := (metrics.cols : Int)
    seats := createEmptySeats metrics.capacity
    rotationCount := 0
    weekLabel := "第1周"
    classTime := "" }

/-- classroom.ts `withLayout` (the layout reconciler). -/
def withLayout (config : TimeModeConfig) (layoutMode : LayoutMode)
    (students : List Student) : TimeModeConfig :=
  let metrics := getLayoutMetrics layoutMode students.length
  match layoutMode with
  | .ARC =>
    let ordered := getOrderedStudentIds students config.seats
    let emptyGrid := createEmptySeats metrics.capacity
    let half := (ordered.length + 1) / 2
    let firstRow := ordered.take half
    let secondRow := ordered.drop half
    let seats := placeCentered (placeCentered emptyGrid firstRow 0 18) secondRow 18 18
    { config with layoutMode := .ARC, rows := (metrics.rows : Int)
                  cols := (metrics.cols : Int), seats := seats }
  | _ =>
    let seats := buildSeatsFromOrder (getOrderedStudentIds students config.seats) metrics.capacity
    { config with layoutMode := layoutMode, rows := (metrics.rows : Int)
                  cols := (metrics.cols : Int), seats := seats }

/-- Consecutive index writes `seats[start + i] = vals[i]` for `i < vals.length`. -/
def setSlice {α : Type} : List α → Nat → List α → List α
  | l, _, [] => l
  | l, i, v :: vs => setSlice (l.set i v) (i + 1) vs

/-- Consecutive index reads `seats[start + i]` for `i < len` (in the source the
indices are always in range). -/
def sliceOf (seats : List (Option String)) (start len : Nat) : List (Option String) :=
  (List.range len).map (fun i => seats.getD (start + i) none)

/-- `[...l.slice(1), l[0]]`: cyclic shift by one, first to last. -/
def rotateOnceList {α : Type} (l : List α) : List α := l.drop 1 ++ l.take 1

/-- The refill loop `seats[i] = i < rotated.length ? rotated[i] : null`. -/
def padWithNull (rotated : List String) (len : Nat) : List (Option String) :=
  (List.range len).map (fun i => rotated.get? i)

/-- One iteration of the active-group loop in classroom.ts `rotateGroupLayout`:
read the group's 6 seats, and when more than one is non-null write back the
cyclically shifted occupants followed by nulls. -/
def rotateGroupStep (seats : List (Option String)) (groupIdx : Nat) :
    List (Option String) :=
  if 1 < ((sliceOf seats (groupIdx * 6) 6).filterMap id).length then
    setSlice seats (groupIdx * 6)
      (padWithNull (rotateOnceList ((sliceOf seats (groupIdx * 6) 6).filterMap id)) 6)
  else seats

/-- classroom.ts `rotateGroupLayout`: reconcile to `GROUPS`, then within each
active group cyclically shift the non-null occupants (first to last), refilling
trailing slots with null. -/
def rotateGroupLayout (config : TimeModeConfig) (students : List Student) : TimeModeConfig :=
  let normalized := withLayout config .GROUPS students
  let groupCount := getGroupCountBySize students.length
  let activeIndices := getActiveGroupIndices groupCount
  let nextSeats := activeIndices.foldl rotateGroupStep normalized.seats
  { normalized with seats := nextSeats, rotationCount := normalized.rotationCount + 1 }

/-- One row of the THREE_ROWS rotation: `Math.ceil(cols / 2)` is `(cols+1)/2`;
collect the row's left and right halves, rotate each half's non-null occupants
when more than one, refilling trailing slots with null. -/
def rotateRowHalves (seats : List (Option String)) (cols row : Nat) :
    List (Option String) :=
  let leftSize := (cols + 1) / 2
  let rowSeats := sliceOf seats (row * cols) cols
  let left := rowSeats.take leftSize
  let right := rowSeats.drop leftSize
  (if 1 < (left.filterMap id).length then
    padWithNull (rotateOnceList (left.filterMap id)) left.length
  else left) ++
  (if 1 < (right.filterMap id).length then
    padWithNull (rotateOnceList (right.filterMap id)) right.length
  else right)

/-- classroom.ts `rotateThreeRows`.  The final write loop fills a fresh grid of
length `normalized.seats.length = 3 * cols` row-major with rows `1, 2, 0`, i.e.
the concatenation below. -/
def rotateThreeRows (config : TimeModeConfig) (students : List Student) : TimeModeConfig :=
  let normalized := withLayout config .THREE_ROWS students
  let cols := normalized.cols.toNat
  let nextSeats := rotateRowHalves normalized.seats cols 1 ++
    rotateRowHalves normalized.seats cols 2 ++ rotateRowHalves normalized.seats cols 0
  { normalized with seats := nextSeats, rotationCount := normalized.rotationCount + 1 }

/-- The row-collection loop of `rotateArcLayout`: push truthy entries. -/
def truthyIds (l : List (Option String)) : List String :=
  l.filterMap (fun o => o.bind (fun s => if truthyStr s then some s else none))

/-- One row of the ARC rotation: collect the row's truthy occupants from the
normalized seats, cyclically shift when more than one, and place centered into
the accumulating fresh grid. -/
def rotateArcRowInto (normSeats seats : List (Option String)) (row : Nat) :
    List (Option String) :=
  if 1 < (truthyIds (sliceOf normSeats (row * 18) 18)).length then
    placeCentered seats (rotateOnceList (truthyIds (sliceOf normSeats (row * 18) 18)))
      (row * 18) 18
  else placeCentered seats (truthyIds (sliceOf normSeats (row * 18) 18)) (row * 18) 18

/-- classroom.ts `rotateArcLayout`: per 18-wide row, collect truthy occupants,
cyclically shift when more than one, and re-place centered into a fresh grid. -/
def rotateArcLayout (config : TimeModeConfig) (students : List Student) : TimeModeConfig :=
  let normalized := withLayout config .ARC students
  let nextSeats := rotateArcRowInto normalized.seats
    (rotateArcRowInto normalized.seats (createEmptySeats normalized.seats.length) 0) 1
  { normalized with seats := nextSeats, rotationCount := normalized.rotationCount + 1 }

/-- classroom.ts `createClassroom`; `freshId` stands for `createId()` and
`nowT` for `new Date().toISOString()`. -/
def createClassroom (freshId nowT name : String) : Classroom :=
  let defaultConfig := createEmptyConfig .GROUPS 0
  { id := freshId, name := name, students := [], campus := "", building := ""
    room := "", sideNotes := "", updatedAt := nowT
    weekday := defaultConfig, weekend := defaultConfig }

/-- classroom.ts `replaceStudents`; `freshIds` supplies the successive
`createId()` results (one per sanitized name, in order). -/
def replaceStudents (freshIds : List String) (nowT : String) (classroom : Classroom)
    (names : List String) (tm : TimeMode) : Classroom :=
  let sanitizedNames := (uniqueNames names).take 36
  let students := (sanitizedNames.zip freshIds).map (fun p => Student.mk p.2 p.1)
  let config := getCfg classroom tm
  let metrics := getLayoutMetrics config.layoutMode students.length
  let seats := buildSeatsFromOrder (students.map (·.id)) metrics.capacity
  setCfg { classroom with students := students, updatedAt := nowT } tm
    { config with rows := (metrics.rows : Int), cols := (metrics.cols : Int)
                  seats := seats, rotationCount := 0 }

/-- classroom.ts `changeLayoutMode`. -/
def changeLayoutMode (nowT : String) (classroom : Classroom) (layoutMode : LayoutMode)
    (tm : TimeMode) : Classroom :=
  let config := getCfg classroom tm
  let nextConfig := withLayout config layoutMode classroom.students
  setCfg { classroom with updatedAt := nowT } tm nextConfig

/-- classroom.ts `normalizeClassroomLayout` (no `updatedAt` refresh here). -/
def normalizeClassroomLayout (classroom : Classroom) (tm : TimeMode) : Classroom :=
  let config := getCfg classroom tm
  setCfg classroom tm (withLayout config config.layoutMode classroom.students)

/-- classroom.ts `swapSeatAssignments`; seat indices are JS numbers (`Int`). -/
def swapSeatAssignments (nowT : String) (classroom : Classroom) (first second : Int)
    (tm : TimeMode) : Classroom :=
  let config := getCfg classroom tm
  if first = second ∨ first < 0 ∨ second < 0 ∨
      (config.seats.length : Int) ≤ first ∨ (config.seats.length : Int) ≤ second then
    classroom
  else
    let seats := (config.seats.set first.toNat (config.seats.getD second.toNat none)).set
      second.toNat (config.seats.getD first.toNat none)
    setCfg { classroom with updatedAt := nowT } tm { config with seats := seats }

/-- classroom.ts `clearSeat`. -/
def clearSeat (nowT : String) (classroom : Classroom) (seatIndex : Int)
    (tm : TimeMode) : Classroom :=
  let config := getCfg classroom tm
  if seatIndex < 0 ∨ (config.seats.length : Int) ≤ seatIndex then classroom
  else
    let seats := config.seats.set seatIndex.toNat none
    setCfg { classroom with updatedAt := nowT } tm { config with seats := seats }

/-- classroom.ts `placeStudentInSeat`. -/
def placeStudentInSeat (nowT : String) (classroom : Classroom) (studentId : String)
    (seatIndex : Int) (tm : TimeMode) : Classroom :=
  let config := getCfg classroom tm
  if seatIndex < 0 ∨ (config.seats.length : Int) ≤ seatIndex then classroom
  else if !(classroom.students.any (fun s => s.id = studentId)) then classroom
  else
    let seats := (config.seats.map (fun seat =>
      if seat = some studentId then none else seat)).set seatIndex.toNat (some studentId)
    setCfg { classroom with updatedAt := nowT } tm { config with seats := seats }

/-- classroom.ts `getAssignedCount` (counts truthy entries). -/
def getAssignedCount (config : TimeModeConfig) : Nat :=
  config.seats.foldl (fun total seat => if occupiedSeat seat then total + 1 else total) 0

/-- classroom.ts `rotateSeatsOnce`. -/
def rotateSeatsOnce (nowT : String) (classroom : Classroom) (tm : TimeMode) : Classroom :=
  let config := getCfg classroom tm
  if getAssignedCount config ≤ 1 then classroom
  else
    let nextConfig :=
      match config.layoutMode with
      | .THREE_ROWS => rotateThreeRows config classroom.students
      | .ARC => rotateArcLayout config classroom.students
      | .GROUPS => rotateGroupLayout config classroom.students
    setCfg { classroom with updatedAt := nowT } tm nextConfig

/-- The in-place Fisher-Yates swap `[a[i], a[j]] = [a[j], a[i]]`. -/
def listSwap (l : List String) (i j : Nat) : List String :=
  (l.set i (l.getD j "")).set j (l.getD i "")

/-- classroom.ts shuffle loop in `randomizeSeats`; `rand i` models the value
`Math.floor(Math.random() * (i + 1))`, forced into `[0, i]` by the modulus. -/
def fisherYates (rand : Nat → Nat) (l : List String) : List String :=
  (((List.range l.length).drop 1).reverse).foldl
    (fun acc i => listSwap acc i (rand i % (i + 1))) l

/-- classroom.ts `randomizeSeats`. -/
def randomizeSeats (rand : Nat → Nat) (nowT : String) (classroom : Classroom)
    (tm : TimeMode) : Classroom :=
  let config := getCfg classroom tm
  let normalized := withLayout config config.layoutMode classroom.students
  let randomizedIds := fisherYates rand (classroom.students.map (·.id))
  let nextSeats :=
    match config.layoutMode with
    | .ARC =>
      let half := (randomizedIds.length + 1) / 2
      placeCentered (placeCentered (createEmptySeats normalized.seats.length)
        (randomizedIds.take half) 0 18) (randomizedIds.drop half) 18 18
    | _ => buildSeatsFromOrder randomizedIds normalized.seats.length
  setCfg { classroom with updatedAt := nowT } tm { normalized with seats := nextSeats }

/-- classroom.ts `getUnassignedStudents` (`filter(Boolean)` keeps truthy ids). -/
def getUnassignedStudents (classroom : Classroom) (tm : TimeMode) : List Student :=
  let config := getCfg classroom tm
  let assignedIds := truthyIds config.seats
  classroom.students.filter (fun s => !(assignedIds.contains s.id))

/-- The column the `k`-th placed id reaches, as an integer, when the loop is
entered with pointers `cl`, `cr` and side `u`. -/
def centerPos (cl cr : Int) (u : Bool) (k : Nat) : Int :=
  if u then (if k % 2 = 0 then cl - (k / 2 : Nat) else cr + (k / 2 : Nat))
  else (if k % 2 = 0 then cr + (k / 2 : Nat) else cl - (k / 2 : Nat))

/-- The landing column of the `k`-th id in a `w`-wide row: outward from the
centre pair, even `k` to the left, odd `k` to the right. -/
def centerColumn (w k : Nat) : Nat :=
  if k % 2 = 0 then (w - 1) / 2 - k / 2 else (w - 1) / 2 + 1 + k / 2

/-- The concrete classroom for claim C10: the weekend roster was installed
first, then `replaceStudents` on the weekday mode replaced the shared roster,
leaving the weekend seats pointing at the two stale ids `i1`, `i2`. -/
def staleClassroom : Classroom :=
  replaceStudents ["i3", "i4"] "T2"
    (replaceStudents ["i1", "i2"] "T1" (createClassroom "cid" "T0" "C1")
      ["A", "B"] TimeMode.weekend)
    ["C", "D"] TimeMode.weekday

/-- Spec-side rotation of one half-row, following the claim wording for the
THREE_ROWS step: the non-empty occupants, cyclically shifted by one position
(first to last), refilled at the front with empty trailing slots; halves with
fewer than two occupants are untouched. -/
def rotateHalfSpec (h : List (Option String)) : List (Option String) :=
  let ne := h.filterMap id
  if 2 ≤ ne.length then
    (match ne with
      | [] => ([] : List String)
      | x :: xs => xs ++ [x]).map some ++
      List.replicate (h.length - ne.length) none
  else h

/-- Spec-side THREE_ROWS rotation step, following the claim wording: split each
of the 3 rows into a left half of `⌈cols/2⌉` seats and a right half, rotate each
half independently, then shift whole rows so that new row 0 is old row 1, new
row 1 is old row 2 and new row 2 is old row 0. -/
def threeRowsStepSpec (seats : List (Option String)) (cols : Nat) : List (Option String) :=
  let row := fun (r : Nat) => (seats.drop (r * cols)).take cols
  let leftSize := (cols + 1) / 2
  let halfRot := fun (r : Nat) =>
    rotateHalfSpec ((row r).take leftSize) ++ rotateHalfSpec ((row r).drop leftSize)
  halfRot 1 ++ halfRot 2 ++ halfRot 0

/-- A concrete THREE_ROWS classroom with four seated students (cols = 2). -/
def threeRowsSample : Classroom :=
  changeLayoutMode "T1"
    (replaceStudents ["i1", "i2", "i3", "i4"] "T1" (createClassroom "cid" "T0" "R")
      ["A", "B", "C", "D"] TimeMode.weekday)
    LayoutMode.THREE_ROWS TimeMode.weekday

/-- No student id occurs in two different seats of the config. -/
def SeatsNodup (config : TimeModeConfig) : Prop :=
  (config.seats.filterMap id).Nodup

/-- Seat uniqueness in both time modes' configs. -/
def ClassNodup (c : Classroom) : Prop :=
  SeatsNodup c.weekday ∧ SeatsNodup c.weekend

instance (config : TimeModeConfig) : Decidable (SeatsNodup config) :=
  inferInstanceAs (Decidable ((config.seats.filterMap id).Nodup))

instance (c : Classroom) : Decidable (ClassNodup c) :=
  inferInstanceAs (Decidable (_ ∧ _))

/-! ### storage.ts: JSON values, normalization and serialization

`JSON.parse` output is modelled by the `Json` inductive (numbers produced by
the engine are integers); a thrown parse error is `none : Option Json` at the
`parseBackup` boundary.  `new Date().toISOString()` is the parameter `nowT` and
`!Number.isNaN(new Date(s).valueOf())` the parameter `validDate`. -/

inductive Json where
  | null : Json
  | bool : Bool → Json
  | num : Int → Json
  | str : String → Json
  | arr : List Json → Json
  | obj : List (String × Json) → Json

/-- JS truthiness of a JSON value (`0`, `''`, `false`, `null` are falsy). -/
def jsTruthy : Json → Bool
  | Json.null => false
  | Json.bool b => b
  | Json.num n => n != 0
  | Json.str s => s != ""
  | Json.arr _ => true
  | Json.obj _ => true

/-- The guard `value && typeof value === 'object'`: of the JSON values exactly
arrays and objects pass (JSON `null` is falsy). -/
def jsObjectLike : Json → Bool
  | Json.arr _ => true
  | Json.obj _ => true
  | _ => false

/-- Property lookup on a parsed object (parsed objects have unique keys). -/
def lookupField : List (String × Json) → String → Option Json
  | [], _ => none
  | (k2, v) :: rest, k => if k2 = k then some v else lookupField rest k

/-- `candidate.k`: a present property, or `none` for `undefined` (field missing
or the value not an object). -/
def jsGet : Json → String → Option Json
  | Json.obj fields, k => lookupField fields k
  | _, _ => none

/-- `!candidate.k` is `!truthyField candidate "k"`. -/
def truthyField (v : Json) (k : String) : Bool :=
  match jsGet v k with
  | some j => jsTruthy j
  | none => false

/-- storage.ts `toStringOrDefault`. -/
def toStringOrDefault (v : Option Json) (fallback : String) : String :=
  match v with
  | some (Json.str s) => s
  | _ => fallback

/-- `typeof candidate.k === 'number' ? candidate.k : fallback`. -/
def numField (v : Json) (k : String) (fallback : Int) : Int :=
  match jsGet v k with
  | some (Json.num n) => n
  | _ => fallback

/-- storage.ts `isLayoutMode`, returning the decoded mode. -/
def isLayoutModeJson : Option Json → Option LayoutMode
  | some (Json.str "THREE_ROWS") => some LayoutMode.THREE_ROWS
  | some (Json.str "GROUPS") => some LayoutMode.GROUPS
  | some (Json.str "ARC") => some LayoutMode.ARC
  | _ => none

/-- storage.ts `isStudent` combined with the coercion to a `Student` record
(the engine's students carry exactly `id` and `name`). -/
def decodeStudent (v : Json) : Option Student :=
  if jsObjectLike v then
    match jsGet v "id", jsGet v "name" with
    | some (Json.str i), some (Json.str n) => some { id := i, name := n }
    | _, _ => none
  else none

/-- JS `String.prototype.trim()` (structural, over the character list). -/
def jsTrim (s : String) : String :=
  String.mk (((s.toList.dropWhile Char.isWhitespace).reverse.dropWhile
    Char.isWhitespace).reverse)

/-- storage.ts `normalizeTimeModeConfig`. -/
def normalizeTimeModeConfig (value : Option Json) (students : List Student)
    (fallbackMode : LayoutMode) : Option TimeModeConfig :=
  match value with
  | some cand =>
    if jsObjectLike cand then
      let layoutMode := (isLayoutModeJson (jsGet cand "layoutMode")).getD fallbackMode
      let studentIds := students.map (fun s => s.id)
      let seats : List (Option String) :=
        match jsGet cand "seats" with
        | some (Json.arr l) => l.map (fun seat =>
            match seat with
            | Json.str s2 => if studentIds.contains s2 then some s2 else none
            | _ => none)
        | _ => []
      let metrics := getLayoutMetrics layoutMode students.length
      some { layoutMode := layoutMode
             rows := numField cand "rows" (metrics.rows : Int)
             cols := numField cand "cols" (metrics.cols : Int)
             seats := seats
             rotationCount := numField cand "rotationCount" 0
             weekLabel := toStringOrDefault (jsGet cand "weekLabel") "第1周"
             classTime := toStringOrDefault (jsGet cand "classTime") "" }
    else none
  | none => none

/-- storage.ts `createDefaultTimeModeConfig`. -/
def createDefaultTimeModeConfig (students : List Student) : TimeModeConfig :=
  let metrics := getLayoutMetrics LayoutMode.GROUPS students.length
  { layoutMode := LayoutMode.GROUPS
    rows := (metrics.rows : Int)
    cols := (metrics.cols : Int)
    seats := List.replicate metrics.capacity none
    rotationCount := 0
    weekLabel := "第1周"
    classTime := "" }

/-- storage.ts `migrateV2Classroom` (old flat single-config format). -/
def migrateV2Classroom (validDate : String → Bool) (nowT : String) (cand : Json)
    (students : List Student) : Option Classroom :=
  match jsGet cand "id", jsGet cand "name" with
  | some (Json.str cid), some (Json.str cname) =>
    let rawStudents :=
      match jsGet cand "students" with
      | some (Json.arr l) => l.filterMap decodeStudent
      | _ => students
    let studentIds := rawStudents.map (fun s => s.id)
    let inferredMode :=
      match isLayoutModeJson (jsGet cand "layoutMode") with
      | some m => m
      | none =>
        match jsGet cand "rows" with
        | some (Json.num n) => if n ≤ 3 then LayoutMode.THREE_ROWS else LayoutMode.GROUPS
        | _ => LayoutMode.GROUPS
    let seats : List (Option String) :=
      match jsGet cand "seats" with
      | some (Json.arr l) => l.map (fun seat =>
          match seat with
          | Json.str s2 => if studentIds.contains s2 then some s2 else none
          | _ => none)
      | _ => []
    let metrics := getLayoutMetrics inferredMode rawStudents.length
    let config : TimeModeConfig :=
      { layoutMode := inferredMode
        rows := numField cand "rows" (metrics.rows : Int)
        cols := numField cand "cols" (metrics.cols : Int)
        seats := seats
        rotationCount := numField cand "rotationCount" 0
        weekLabel := toStringOrDefault (jsGet cand "weekLabel") "第1周"
        classTime := toStringOrDefault (jsGet cand "classTime") "" }
    let emptyConfig := createDefaultTimeModeConfig rawStudents
    let classroom : Classroom :=
      { id := cid
        name := if jsTrim cname = "" then "未命名班级" else jsTrim cname
        students := rawStudents
        campus := toStringOrDefault (jsGet cand "campus") ""
        building := toStringOrDefault (jsGet cand "building") ""
        room := toStringOrDefault (jsGet cand "room") ""
        sideNotes := toStringOrDefault (jsGet cand "sideNotes") ""
        updatedAt :=
          match jsGet cand "updatedAt" with
          | some (Json.str d) => if validDate d then d else nowT
          | _ => nowT
        weekday := config
        weekend := emptyConfig }
    some (normalizeClassroomLayout (normalizeClassroomLayout classroom TimeMode.weekday)
      TimeMode.weekend)
  | _, _ => none

/-- storage.ts `normalizeClassroom`.  The v2-migration branch is taken exactly
when no valid students were found, neither `weekday` nor `weekend` is truthy,
and `seats` is an array; otherwise control falls through to the new format. -/
def normalizeClassroom (validDate : String → Bool) (nowT : String) (v : Json) :
    Option Classroom :=
  if jsObjectLike v then
    match jsGet v "id", jsGet v "name" with
    | some (Json.str cid), some (Json.str cname) =>
      let rawStudents :=
        match jsGet v "students" with
        | some (Json.arr l) => l
        | _ => []
      let students := rawStudents.filterMap decodeStudent
      if students.length = 0 ∧ truthyField v "weekday" = false ∧
          truthyField v "weekend" = false ∧
          (match jsGet v "seats" with
            | some (Json.arr _) => true
            | _ => false) = true then
        migrateV2Classroom validDate nowT v students
      else
        let weekday := (normalizeTimeModeConfig (jsGet v "weekday") students
          LayoutMode.GROUPS).getD (createDefaultTimeModeConfig students)
        let weekend := (normalizeTimeModeConfig (jsGet v "weekend") students
          LayoutMode.GROUPS).getD (createDefaultTimeModeConfig students)
        let classroom : Classroom :=
          { id := cid
            name := if jsTrim cname = "" then "未命名班级" else jsTrim cname
            students := students
            campus := toStringOrDefault (jsGet v "campus") ""
            building := toStringOrDefault (jsGet v "building") ""
            room := toStringOrDefault (jsGet v "room") ""
            sideNotes := toStringOrDefault (jsGet v "sideNotes") ""
            updatedAt :=
              match jsGet v "updatedAt" with
              | some (Json.str d) => if validDate d then d else nowT
              | _ => nowT
            weekday := weekday
            weekend := weekend }
        some (normalizeClassroomLayout (normalizeClassroomLayout classroom
          TimeMode.weekday) TimeMode.weekend)
    | _, _ => none
  else none

/-- storage.ts `normalizeState` (`APP_VERSION = 3`). -/
def normalizeState (validDate : String → Bool) (nowT : String) (v : Json) :
    Option AppState :=
  if jsObjectLike v then
    match jsGet v "classrooms" with
    | some (Json.arr l) =>
      let classrooms := l.filterMap (normalizeClassroom validDate nowT)
      let activeClassroomId :=
        match jsGet v "activeClassroomId" with
        | some (Json.str aid) =>
          if classrooms.any (fun c2 => c2.id = aid) then some aid
          else (classrooms.head?).map (fun c2 => c2.id)
        | _ => (classrooms.head?).map (fun c2 => c2.id)
      let activeTimeMode :=
        match jsGet v "activeTimeMode" with
        | some (Json.str "weekday") => TimeMode.weekday
        | some (Json.str "weekend") => TimeMode.weekend
        | _ => TimeMode.weekday
      some { version := 3
             classrooms := classrooms
             activeClassroomId := activeClassroomId
             activeTimeMode := activeTimeMode }
    | _ => none
  else none

/-- storage.ts `parseBackup`; `none` stands for a `JSON.parse` throw. -/
def parseBackup (validDate : String → Bool) (nowT : String) (parsed : Option Json) :
    Option AppState :=
  match parsed with
  | some j => normalizeState validDate nowT j
  | none => none

/-! `JSON.stringify` on the engine's state (the serialization side of the
round-trip claim). -/

def encodeSeat : Option String → Json
  | some s => Json.str s
  | none => Json.null

def encodeStudent (s : Student) : Json :=
  Json.obj [("id", Json.str s.id), ("name", Json.str s.name)]

def encodeLayoutMode : LayoutMode → Json
  | LayoutMode.THREE_ROWS => Json.str "THREE_ROWS"
  | LayoutMode.GROUPS => Json.str "GROUPS"
  | LayoutMode.ARC => Json.str "ARC"

def encodeTimeMode : TimeMode → Json
  | TimeMode.weekday => Json.str "weekday"
  | TimeMode.weekend => Json.str "weekend"

def encodeConfig (cfg : TimeModeConfig) : Json :=
  Json.obj [("layoutMode", encodeLayoutMode cfg.layoutMode),
    ("rows", Json.num cfg.rows), ("cols", Json.num cfg.cols),
    ("seats", Json.arr (cfg.seats.map encodeSeat)),
    ("rotationCount", Json.num cfg.rotationCount),
    ("weekLabel", Json.str cfg.weekLabel), ("classTime", Json.str cfg.classTime)]

def encodeClassroom (c : Classroom) : Json :=
  Json.obj [("id", Json.str c.id), ("name", Json.str c.name),
    ("students", Json.arr (c.students.map encodeStudent)),
    ("campus", Json.str c.campus), ("building", Json.str c.building),
    ("room", Json.str c.room), ("sideNotes", Json.str c.sideNotes),
    ("updatedAt", Json.str c.updatedAt),
    ("weekday", encodeConfig c.weekday), ("weekend", encodeConfig c.weekend)]

def encodeState (st : AppState) : Json :=
  Json.obj [("version", Json.num st.version),
    ("classrooms", Json.arr (st.classrooms.map encodeClassroom)),
    ("activeClassroomId",
      match st.activeClassroomId with
      | some aid => Json.str aid
      | none => Json.null),
    ("activeTimeMode", encodeTimeMode st.activeTimeMode)]

/-- The config's non-null seats all reference the roster (Bool form). -/
def seatsFromRoster (cfg : TimeModeConfig) (students : List Student) : Bool :=
  (cfg.seats.filterMap id).all (fun sid => (students.map (fun s => s.id)).contains sid)

/-- A state reached by public operations: create a classroom, set its weekday
roster, then clear seat 0.  The persistence round trip re-seats the cleared
student, so this state is not a round-trip fixed point. -/
def roundTripCex : AppState :=
  { version := 3
    classrooms := [clearSeat "T2"
      (replaceStudents ["i1", "i2"] "T1" (createClassroom "cid" "T0" "C1") ["A", "B"]
        TimeMode.weekday) 0 TimeMode.weekday]
    activeClassroomId := some "cid"
    activeTimeMode := TimeMode.weekday }

/-- A state reached by public operations whose classroom is a fixed point of the
layout reconciliation in both time modes. -/
def roundTripWitState : AppState :=
  { version := 3
    classrooms := [changeLayoutMode "T2"
      (replaceStudents ["i1", "i2"] "T1" (createClassroom "cid" "T0" "C1") ["A", "B"]
        TimeMode.weekday) LayoutMode.GROUPS TimeMode.weekend]
    activeClassroomId := some "cid"
    activeTimeMode := TimeMode.weekday }

/-! ### Theorems -/

/-- Claim C3: for every layout mode and student count `n ≥ 0` the capacity of
`getLayoutMetrics` is at least `min n 36`; for `GROUPS` the capacity is exactly
36 regardless of `n`, and the group count is the clamp of `⌈n/6⌉` to `[3, 6]`,
with `n = 0` giving 3. -/
theorem layoutMetrics_capacity_bounds (layoutMode : LayoutMode) (n : Nat) :
    min n 36 ≤ (getLayoutMetrics layoutMode n).capacity ∧
    (getLayoutMetrics .GROUPS n).capacity = 36 ∧
    (getLayoutMetrics .GROUPS n).groupCount = max 3 (min 6 ((n + 5) / 6)) ∧
    (getLayoutMetrics .GROUPS 0).groupCount = 3 := by
  refine ⟨?_, rfl, ?_, rfl⟩
  · cases layoutMode with
    | GROUPS => simp [getLayoutMetrics]
    | ARC => simp [getLayoutMetrics]
    | THREE_ROWS =>
      simp only [getLayoutMetrics]
      by_cases h : n > 0 <;> (simp [h]; try omega)
  · simp only [getLayoutMetrics, getGroupCountBySize]
    by_cases h : n ≤ 0 <;> (simp [h]; try omega)

theorem placeCenteredAux_nil (seats : List (Option String)) (s w : Nat) (cl cr : Int)
    (u : Bool) : placeCenteredAux seats [] s w cl cr u = seats := by
  rw [placeCenteredAux]

theorem placeCenteredAux_left_place (seats : List (Option String)) (a : String)
    (rest : List String) (s w : Nat) (cl cr : Int) (hcl : 0 ≤ cl) :
    placeCenteredAux seats (a :: rest) s w cl cr true =
      placeCenteredAux (seats.set (s + cl.toNat) (some a)) rest s w (cl - 1) cr false := by
  rw [placeCenteredAux]
  rw [dif_neg (by omega), dif_pos rfl, dif_pos hcl]

theorem placeCenteredAux_right_place (seats : List (Option String)) (a : String)
    (rest : List String) (s w : Nat) (cl cr : Int) (hcr : cr < (w : Int)) :
    placeCenteredAux seats (a :: rest) s w cl cr false =
      placeCenteredAux (seats.set (s + cr.toNat) (some a)) rest s w cl (cr + 1) true := by
  rw [placeCenteredAux]
  rw [dif_neg (by omega), dif_neg (by decide), dif_pos hcr]

/-- The while loop never writes outside the union of the index ranges reachable
by the two pointers: positions `s + c` with `0 ≤ c ≤ cl` (left) or
`cr ≤ c < w` (right).  Every other position keeps its previous entry. -/
theorem placeCenteredAux_get_untouched (seats : List (Option String)) (ids : List String)
    (s w : Nat) (cl cr : Int) (u : Bool) (i : Nat)
    (hL : ∀ c : Int, 0 ≤ c → c ≤ cl → i ≠ s + c.toNat)
    (hR : ∀ c : Int, cr ≤ c → c < (w : Int) → i ≠ s + c.toNat) :
    (placeCenteredAux seats ids s w cl cr u)[i]? = seats[i]? := by
  induction seats, ids, s, w, cl, cr, u using placeCenteredAux.induct
  case case1 seats s w cl cr u =>
    rw [placeCenteredAux]
  case case2 seats s w cl cr u a rest h =>
    rw [placeCenteredAux, dif_pos h]
  case case3 seats s w cl cr a rest h hcl ih =>
    rw [placeCenteredAux, dif_neg h, dif_pos rfl, dif_pos hcl]
    rw [ih (fun c h0 h1 => hL c h0 (by omega)) hR]
    exact List.getElem?_set_ne (Ne.symm (hL cl hcl le_rfl))
  case case4 seats s w cl cr a rest h hcl ih =>
    rw [placeCenteredAux, dif_neg h, dif_pos rfl, dif_neg hcl]
    exact ih hL hR
  case case5 seats s w cl cr u a rest h hu hcr ih =>
    rw [placeCenteredAux, dif_neg h, dif_neg hu, dif_pos hcr]
    rw [ih hL (fun c h0 h1 => hR c (by omega) h1)]
    exact List.getElem?_set_ne (Ne.symm (hR cr le_rfl hcr))
  case case6 seats s w cl cr u a rest h hu hcr ih =>
    rw [placeCenteredAux, dif_neg h, dif_neg hu, dif_neg hcr]
    exact ih hL hR

theorem centerPos_succ_true (cl cr : Int) (k : Nat) :
    centerPos cl cr true (k + 1) = centerPos (cl - 1) cr false k := by
  by_cases h : k % 2 = 0
  · have h1 : (k + 1) % 2 = 1 := by omega
    simp [centerPos, h, h1]
    omega
  · have h1 : (k + 1) % 2 = 0 := by omega
    simp [centerPos, h, h1]
    omega

theorem centerPos_succ_false (cl cr : Int) (k : Nat) :
    centerPos cl cr false (k + 1) = centerPos cl (cr + 1) true k := by
  by_cases h : k % 2 = 0
  · have h1 : (k + 1) % 2 = 1 := by omega
    simp [centerPos, h, h1]
    omega
  · have h1 : (k + 1) % 2 = 0 := by omega
    simp [centerPos, h, h1]
    omega

/-- When both pointer budgets suffice for all ids (which callers with
`ids.length ≤ rowWidth` guarantee), the `k`-th id is placed at
`s + centerPos cl cr u k` and survives there to the end of the loop. -/
theorem placeCenteredAux_lands (ids : List String) (seats : List (Option String))
    (s w : Nat) (cl cr : Int) (u : Bool)
    (hlen : s + w ≤ seats.length) (hclw : cl < (w : Int)) (hclcr : cl < cr)
    (hL : ((if u then (ids.length + 1) / 2 else ids.length / 2 : Nat) : Int) ≤ cl + 1)
    (hR : (cr : Int) + ((if u then ids.length / 2 else (ids.length + 1) / 2 : Nat) : Int) ≤ w) :
    ∀ k, (hk : k < ids.length) →
      (placeCenteredAux seats ids s w cl cr u)[s + (centerPos cl cr u k).toNat]? =
        some (some (ids.get ⟨k, hk⟩)) := by
  induction ids generalizing seats cl cr u with
  | nil => intro k hk; exact absurd hk (by simp)
  | cons a rest ih =>
    intro k hk
    cases u with
    | true =>
      simp at hL hR
      have hcl : 0 ≤ cl := by omega
      rw [placeCenteredAux_left_place _ _ _ _ _ _ _ hcl]
      cases k with
      | zero =>
        have hpos : centerPos cl cr true 0 = cl := by simp [centerPos]
        rw [hpos, placeCenteredAux_get_untouched]
        · exact List.getElem?_set_eq_of_lt _ (by omega)
        · intro c h0 h1; omega
        · intro c h0 h1; omega
      | succ k2 =>
        rw [centerPos_succ_true]
        have hres := ih (seats.set (s + cl.toNat) (some a)) (cl - 1) cr false
          (by simp; omega) (by omega) (by omega)
          (by simp; omega) (by simp; omega) k2 (by simpa using hk)
        simpa using hres
    | false =>
      simp at hL hR
      have hcr : cr < (w : Int) := by omega
      rw [placeCenteredAux_right_place _ _ _ _ _ _ _ hcr]
      cases k with
      | zero =>
        have hpos : centerPos cl cr false 0 = cr := by simp [centerPos]
        rw [hpos, placeCenteredAux_get_untouched]
        · exact List.getElem?_set_eq_of_lt _ (by omega)
        · intro c h0 h1; omega
        · intro c h0 h1; omega
      | succ k2 =>
        rw [centerPos_succ_false]
        have hres := ih (seats.set (s + cr.toNat) (some a)) cl (cr + 1) true
          (by simp; omega) (by omega) (by omega)
          (by simp; omega) (by simp; omega) k2 (by simpa using hk)
        simpa using hres

/-- `Math.floor((w - 1) / 2)` coincides with natural division once `1 ≤ w`. -/
theorem centerLeft_cast (w : Nat) (hw : 1 ≤ w) :
    ((w : Int) - 1).fdiv 2 = (((w - 1) / 2 : Nat) : Int) := by
  have h : (w : Int) - 1 = ((w - 1 : Nat) : Int) := by omega
  rw [h, show ((2 : Int)) = ((2 : Nat) : Int) from rfl, Int.ofNat_fdiv]

theorem placeCentered_eq_aux (seats : List (Option String)) (ids : List String)
    (s w : Nat) :
    placeCentered seats ids s w =
      placeCenteredAux seats ids s w (((w : Int) - 1).fdiv 2)
        ((((w : Int) - 1).fdiv 2) + 1) true := rfl

example :
    placeCentered (createEmptySeats 18) ["a", "b", "c", "d"] 0 18 =
      [none, none, none, none, none, none, none, some "c", some "a", some "b",
       some "d", none, none, none, none, none, none, none] := by
  simp [placeCentered, placeCenteredAux, createEmptySeats, Int.fdiv]


/-- `setCfg` never touches `updatedAt`. -/
theorem setCfg_updatedAt (c : Classroom) (tm : TimeMode) (cfg : TimeModeConfig) :
    (setCfg c tm cfg).updatedAt = c.updatedAt := by
  cases tm <;> rfl

/-- Claim C4: whenever at most one seat of the chosen time mode's config is
occupied, `rotateSeatsOnce` returns the classroom completely unchanged (same
seats, same rotationCount, no other field modified). -/
theorem rotateSeatsOnce_noop_of_le_one (nowT : String) (c : Classroom) (tm : TimeMode)
    (h : getAssignedCount (getCfg c tm) ≤ 1) : rotateSeatsOnce nowT c tm = c := by
  simp only [rotateSeatsOnce, if_pos h]

/-- Witness for C4: a freshly created classroom has no occupants, and rotating
it is the identity. -/
theorem rotateSeatsOnce_noop_of_le_one_witness :
    getAssignedCount (getCfg (createClassroom "cid" "T0" "J328") TimeMode.weekday) ≤ 1 ∧
    rotateSeatsOnce "T1" (createClassroom "cid" "T0" "J328") TimeMode.weekday =
      createClassroom "cid" "T0" "J328" :=
  ⟨by decide, rotateSeatsOnce_noop_of_le_one "T1" (createClassroom "cid" "T0" "J328")
    TimeMode.weekday (by decide)⟩

/-- Counterexample to claim C8: `swapSeatAssignments` with equal indices is a
no-op that does NOT refresh `updatedAt` (the input's timestamp survives). -/
theorem swap_noop_keeps_updatedAt :
    (swapSeatAssignments "T1" (createClassroom "cid" "T0" "J328") 0 0 TimeMode.weekday).updatedAt
      = "T0" ∧ ("T0" : String) ≠ "T1" := by
  constructor
  · rfl
  · decide

/-- Claim C8 (amended): every aggregate operation either returns the input
classroom unchanged (exactly in the defined no-op cases: equal or out-of-range
indices, unknown student ids, the rotation guard) or refreshes `updatedAt` to
the current time. -/
theorem ops_refresh_updatedAt_or_noop (freshIds : List String) (rand : Nat → Nat)
    (nowT : String) (c : Classroom) (names : List String) (mode : LayoutMode)
    (i j : Int) (sid : String) (tm : TimeMode) :
    (replaceStudents freshIds nowT c names tm).updatedAt = nowT ∧
    (changeLayoutMode nowT c mode tm).updatedAt = nowT ∧
    (swapSeatAssignments nowT c i j tm = c ∨
      (swapSeatAssignments nowT c i j tm).updatedAt = nowT) ∧
    (clearSeat nowT c i tm = c ∨ (clearSeat nowT c i tm).updatedAt = nowT) ∧
    (placeStudentInSeat nowT c sid i tm = c ∨
      (placeStudentInSeat nowT c sid i tm).updatedAt = nowT) ∧
    (rotateSeatsOnce nowT c tm = c ∨ (rotateSeatsOnce nowT c tm).updatedAt = nowT) ∧
    (randomizeSeats rand nowT c tm).updatedAt = nowT := by
  refine ⟨?_, ?_, ?_, ?_, ?_, ?_, ?_⟩
  · simp [replaceStudents, setCfg_updatedAt]
  · simp [changeLayoutMode, setCfg_updatedAt]
  · by_cases h : i = j ∨ i < 0 ∨ j < 0 ∨ ((getCfg c tm).seats.length : Int) ≤ i ∨
        ((getCfg c tm).seats.length : Int) ≤ j
    · left; simp only [swapSeatAssignments]
      rw [if_pos]; tauto
    · right; simp only [swapSeatAssignments]
      rw [if_neg]; · exact setCfg_updatedAt _ _ _
      tauto
  · by_cases h : i < 0 ∨ ((getCfg c tm).seats.length : Int) ≤ i
    · left; simp only [clearSeat]; rw [if_pos h]
    · right; simp only [clearSeat]; rw [if_neg h]; exact setCfg_updatedAt _ _ _
  · by_cases h : i < 0 ∨ ((getCfg c tm).seats.length : Int) ≤ i
    · left; simp only [placeStudentInSeat]; rw [if_pos h]
    · by_cases h2 : !(c.students.any (fun s => s.id = sid))
      · left; simp only [placeStudentInSeat]; rw [if_neg h, if_pos h2]
      · right; simp only [placeStudentInSeat]; rw [if_neg h, if_neg h2]
        exact setCfg_updatedAt _ _ _
  · by_cases h : getAssignedCount (getCfg c tm) ≤ 1
    · left; simp only [rotateSeatsOnce]; rw [if_pos h]
    · right; simp only [rotateSeatsOnce]; rw [if_neg h]; exact setCfg_updatedAt _ _ _
  · simp [randomizeSeats, setCfg_updatedAt]

/-- Claim C10: the no-op guard counts every non-null seat entry even when none
of them references a roster student: on `staleClassroom`'s weekend config (two
non-null stale entries, zero roster references) `rotateSeatsOnce` is not a
no-op — it increments `rotationCount` and rebuilds the seats from the current
roster. -/
theorem rotation_guard_counts_stale_ids :
    (staleClassroom.weekend.seats.filterMap id).length = 2 ∧
    (∀ sid ∈ staleClassroom.weekend.seats.filterMap id,
      ∀ s ∈ staleClassroom.students, s.id ≠ sid) ∧
    rotateSeatsOnce "T3" staleClassroom TimeMode.weekend ≠ staleClassroom ∧
    (rotateSeatsOnce "T3" staleClassroom TimeMode.weekend).weekend.rotationCount =
      staleClassroom.weekend.rotationCount + 1 ∧
    (rotateSeatsOnce "T3" staleClassroom TimeMode.weekend).weekend.seats =
      some "i4" :: some "i3" :: List.replicate 34 none := by
  decide

/-- Claim C6: `placeCentered` fills a row of width `rowWidth` outward from
`centerLeft = ⌊(rowWidth-1)/2⌋` and `centerRight = centerLeft + 1`, alternating
sides starting with the left and stopping when ids are exhausted or both
pointers leave the row: whenever the ids fit (`ids.length ≤ rowWidth`, so the
loop stops by exhausting the ids), the `k`-th id lands at column
`centerColumn rowWidth k`; in particular for `rowWidth = 18` the first four
landing columns are 8, 9, 7, 10 in that order. -/
theorem placeCentered_center_out (seats : List (Option String)) (ids : List String)
    (s w : Nat) (hlen : s + w ≤ seats.length) (hids : ids.length ≤ w) :
    (∀ k, (hk : k < ids.length) →
      (placeCentered seats ids s w)[s + centerColumn w k]? =
        some (some (ids.get ⟨k, hk⟩))) ∧
    centerColumn 18 0 = 8 ∧ centerColumn 18 1 = 9 ∧
    centerColumn 18 2 = 7 ∧ centerColumn 18 3 = 10 := by
  refine ⟨?_, by decide, by decide, by decide, by decide⟩
  intro k hk
  have hw : 1 ≤ w := by omega
  rw [placeCentered_eq_aux, centerLeft_cast w hw]
  have hidx : (centerPos (((w - 1) / 2 : Nat) : Int) ((((w - 1) / 2 : Nat) : Int) + 1)
      true k).toNat = centerColumn w k := by
    by_cases h2 : k % 2 = 0 <;> simp [centerPos, centerColumn, h2] <;> omega
  rw [← hidx]
  exact placeCenteredAux_lands ids seats s w _ _ true hlen (by omega) (by omega)
    (by simp; omega) (by simp; omega) k hk

/-- Witness for C6: four ids in an 18-wide row; the third id (`k = 2`) lands at
column 7. -/
theorem placeCentered_center_out_witness :
    (0 + 18 ≤ (createEmptySeats 18).length ∧
      (["a", "b", "c", "d"] : List String).length ≤ 18) ∧
    (placeCentered (createEmptySeats 18) ["a", "b", "c", "d"] 0 18)[0 + centerColumn 18 2]? =
      some (some "c") :=
  ⟨⟨by decide, by decide⟩,
    (placeCentered_center_out (createEmptySeats 18) ["a", "b", "c", "d"] 0 18
      (by decide) (by decide)).1 2 (by decide)⟩

theorem getCfg_setCfg (c : Classroom) (tm : TimeMode) (cfg : TimeModeConfig) :
    getCfg (setCfg c tm cfg) tm = cfg := by
  cases tm <;> rfl

theorem buildSeatsFromOrder_length (ids : List String) (cap : Nat) :
    (buildSeatsFromOrder ids cap).length = cap := by
  simp [buildSeatsFromOrder]
  omega

theorem sliceOf_eq_drop_take (seats : List (Option String)) (start len : Nat)
    (h : start + len ≤ seats.length) :
    sliceOf seats start len = (seats.drop start).take len := by
  apply List.ext_getElem?
  intro i
  by_cases hi : i < len
  · have hsi : start + i < seats.length := by omega
    simp [sliceOf, List.getElem?_take, hi, List.getElem?_drop, List.getElem?_range hi,
      List.getD_eq_getElem?_getD, List.getElem?_eq_getElem hsi]
  · have h1 : (sliceOf seats start len).length ≤ i := by
      simp [sliceOf]; omega
    have h2 : (((seats.drop start).take len)).length ≤ i := by
      simp; omega
    rw [List.getElem?_eq_none h1, List.getElem?_eq_none h2]

theorem padWithNull_eq (rot : List String) (len : Nat) (h : rot.length ≤ len) :
    padWithNull rot len = rot.map some ++ List.replicate (len - rot.length) none := by
  apply List.ext_getElem?
  intro i
  by_cases hi : i < len
  · rw [show (padWithNull rot len)[i]? = some (rot.get? i) by
      simp [padWithNull, List.getElem?_range hi]]
    by_cases hir : i < rot.length
    · rw [List.getElem?_append_left (by simpa using hir)]
      simp [List.get?_eq_getElem?, List.getElem?_eq_getElem hir,
        List.getElem?_map]
    · rw [List.getElem?_append_right (by simpa using hir)]
      rw [List.get?_eq_getElem?, List.getElem?_eq_none (by omega)]
      rw [List.getElem?_replicate]
      simp
      omega
  · rw [List.getElem?_eq_none (by simp [padWithNull]; omega),
      List.getElem?_eq_none (by simp; omega)]

theorem rotateOnceList_length {α : Type} (l : List α) :
    (rotateOnceList l).length = l.length := by
  simp [rotateOnceList]
  omega

theorem rotateHalf_eq (h : List (Option String)) :
    (if 1 < (h.filterMap id).length
      then padWithNull (rotateOnceList (h.filterMap id)) h.length
      else h) = rotateHalfSpec h := by
  unfold rotateHalfSpec
  by_cases hc : 2 ≤ (h.filterMap id).length
  · rw [if_pos (by omega), if_pos hc]
    obtain ⟨x, xs, hxe⟩ : ∃ x xs, h.filterMap id = x :: xs := by
      cases hfm : h.filterMap id with
      | nil => rw [hfm] at hc; simp at hc
      | cons x xs => exact ⟨x, xs, rfl⟩
    have hlen : (h.filterMap id).length ≤ h.length := List.length_filterMap_le _ _
    rw [hxe, padWithNull_eq _ _ (by rw [rotateOnceList_length, ← hxe]; exact hlen)]
    simp [rotateOnceList, rotateOnceList_length]
  · rw [if_neg (by omega), if_neg hc]

theorem withLayout_rotationCount (config : TimeModeConfig) (mode : LayoutMode)
    (students : List Student) :
    (withLayout config mode students).rotationCount = config.rotationCount := by
  cases mode <;> rfl

theorem withLayout_threeRows_cols (config : TimeModeConfig) (students : List Student) :
    (withLayout config .THREE_ROWS students).cols =
      ((getLayoutMetrics .THREE_ROWS students.length).cols : Int) := rfl

theorem withLayout_threeRows_len (config : TimeModeConfig) (students : List Student) :
    (withLayout config .THREE_ROWS students).seats.length =
      3 * (getLayoutMetrics .THREE_ROWS students.length).cols := by
  show (buildSeatsFromOrder _ _).length = _
  rw [buildSeatsFromOrder_length]
  rfl

theorem rotateThreeRows_eq_spec (config : TimeModeConfig) (students : List Student) :
    (rotateThreeRows config students).seats =
      threeRowsStepSpec (withLayout config .THREE_ROWS students).seats
        (withLayout config .THREE_ROWS students).cols.toNat ∧
    (rotateThreeRows config students).rotationCount = config.rotationCount + 1 := by
  constructor
  · have hcols : (withLayout config .THREE_ROWS students).cols.toNat =
        (getLayoutMetrics .THREE_ROWS students.length).cols := by
      rw [withLayout_threeRows_cols]; exact Int.toNat_ofNat _
    have hb : ∀ r : Nat,
        r * (withLayout config .THREE_ROWS students).cols.toNat +
            (withLayout config .THREE_ROWS students).cols.toNat ≤
          (withLayout config .THREE_ROWS students).seats.length →
        sliceOf (withLayout config .THREE_ROWS students).seats
            (r * (withLayout config .THREE_ROWS students).cols.toNat)
            (withLayout config .THREE_ROWS students).cols.toNat =
          ((withLayout config .THREE_ROWS students).seats.drop
            (r * (withLayout config .THREE_ROWS students).cols.toNat)).take
            (withLayout config .THREE_ROWS students).cols.toNat :=
      fun r hr => sliceOf_eq_drop_take _ _ _ hr
    have hok : ∀ r : Nat, r ≤ 2 →
        r * (withLayout config .THREE_ROWS students).cols.toNat +
            (withLayout config .THREE_ROWS students).cols.toNat ≤
          (withLayout config .THREE_ROWS students).seats.length := by
      intro r hr
      rw [hcols, withLayout_threeRows_len]
      have : r * (getLayoutMetrics .THREE_ROWS students.length).cols ≤
          2 * (getLayoutMetrics .THREE_ROWS students.length).cols :=
        Nat.mul_le_mul_right _ hr
      omega
    unfold rotateThreeRows rotateRowHalves threeRowsStepSpec
    simp only [hb 1 (hok 1 (by omega)), hb 2 (hok 2 (by omega)), hb 0 (hok 0 (by omega)),
      rotateHalf_eq]
  · show (withLayout config .THREE_ROWS students).rotationCount + 1 = config.rotationCount + 1
    rw [withLayout_rotationCount]

/-- Claim C2: on a config whose layoutMode is THREE_ROWS with more than one
occupied seat, `rotateSeatsOnce` performs exactly the two spec steps on the
defensively re-normalized seats — per row, rotate the non-empty occupants of
the `⌈cols/2⌉`-seat left half and of the right half independently by one
position (first to last), then shift whole rows (new row 0 = old row 1, new
row 1 = old row 2, new row 2 = old row 0) — and increments `rotationCount` by
exactly 1. -/
theorem rotateSeatsOnce_threeRows_steps (nowT : String) (c : Classroom) (tm : TimeMode)
    (hmode : (getCfg c tm).layoutMode = .THREE_ROWS)
    (hcount : 1 < getAssignedCount (getCfg c tm)) :
    (getCfg (rotateSeatsOnce nowT c tm) tm).seats =
      threeRowsStepSpec (withLayout (getCfg c tm) .THREE_ROWS c.students).seats
        (withLayout (getCfg c tm) .THREE_ROWS c.students).cols.toNat ∧
    (getCfg (rotateSeatsOnce nowT c tm) tm).rotationCount =
      (getCfg c tm).rotationCount + 1 := by
  have hng : ¬ getAssignedCount (getCfg c tm) ≤ 1 := by omega
  unfold rotateSeatsOnce
  rw [if_neg hng, hmode, getCfg_setCfg]
  exact rotateThreeRows_eq_spec (getCfg c tm) c.students

/-- Witness for C2: a four-student THREE_ROWS classroom (cols = 2). -/
theorem rotateSeatsOnce_threeRows_steps_witness :
    (getCfg threeRowsSample TimeMode.weekday).layoutMode = LayoutMode.THREE_ROWS ∧
    1 < getAssignedCount (getCfg threeRowsSample TimeMode.weekday) ∧
    ((getCfg (rotateSeatsOnce "T2" threeRowsSample TimeMode.weekday) TimeMode.weekday).seats =
      threeRowsStepSpec
        (withLayout (getCfg threeRowsSample TimeMode.weekday) .THREE_ROWS
          threeRowsSample.students).seats
        (withLayout (getCfg threeRowsSample TimeMode.weekday) .THREE_ROWS
          threeRowsSample.students).cols.toNat ∧
    (getCfg (rotateSeatsOnce "T2" threeRowsSample TimeMode.weekday) TimeMode.weekday).rotationCount =
      (getCfg threeRowsSample TimeMode.weekday).rotationCount + 1) :=
  ⟨by decide, by decide,
    rotateSeatsOnce_threeRows_steps "T2" threeRowsSample TimeMode.weekday
      (by decide) (by decide)⟩

theorem foldl_pushIfNew_nodup {β : Type} (l : List β) (f : List String → β → List String)
    (hf : ∀ acc b, f acc b = acc ∨ ∃ x, x ∉ acc ∧ f acc b = acc ++ [x]) :
    ∀ acc : List String, acc.Nodup → (l.foldl f acc).Nodup := by
  induction l with
  | nil => intro acc h; exact h
  | cons b rest ih =>
    intro acc h
    simp only [List.foldl_cons]
    rcases hf acc b with h1 | ⟨x, hx, h1⟩
    · rw [h1]; exact ih acc h
    · rw [h1]
      exact ih _ (h.append (List.nodup_singleton x) (by simpa using hx))

theorem foldl_grows {β : Type} (l : List β) (f : List String → β → List String)
    (hf : ∀ acc b, ∃ t, f acc b = acc ++ t) :
    ∀ (acc : List String) (x : String), x ∈ acc → x ∈ l.foldl f acc := by
  induction l with
  | nil => intro acc x hx; exact hx
  | cons b rest ih =>
    intro acc x hx
    simp only [List.foldl_cons]
    obtain ⟨t, ht⟩ := hf acc b
    rw [ht]
    exact ih _ x (List.mem_append_left _ hx)

theorem foldl_into {β : Type} (l : List β) (f : List String → β → List String)
    (P : String → Prop) (hf : ∀ acc b x, x ∈ f acc b → x ∈ acc ∨ P x) :
    ∀ (acc : List String) (x : String), x ∈ l.foldl f acc → x ∈ acc ∨ P x := by
  induction l with
  | nil => intro acc x hx; exact Or.inl hx
  | cons b rest ih =>
    intro acc x hx
    rcases ih _ x hx with h1 | h1
    · exact hf acc b x h1
    · exact Or.inr h1

theorem getOrderedStudentIds_nodup (students : List Student) (seats : List (Option String)) :
    (getOrderedStudentIds students seats).Nodup := by
  unfold getOrderedStudentIds
  apply foldl_pushIfNew_nodup
  · intro acc s
    by_cases h : acc.contains s.id = true
    · left; rw [if_pos h]
    · right
      exact ⟨s.id, fun hm => h (List.elem_eq_true_of_mem hm), by rw [if_neg h]⟩
  · apply foldl_pushIfNew_nodup
    · intro acc seat
      cases seat with
      | none => exact Or.inl rfl
      | some sid =>
        by_cases h : (truthyStr sid && (students.map (·.id)).contains sid
            && !acc.contains sid) = true
        · right
          refine ⟨sid, ?_, by
            show (if (truthyStr sid && (students.map (·.id)).contains sid
              && !acc.contains sid) = true then acc ++ [sid] else acc) = acc ++ [sid]
            rw [if_pos h]⟩
          intro hm
          have hc : acc.contains sid = true := List.elem_eq_true_of_mem hm
          rw [hc] at h
          simp at h
        · refine Or.inl (by
            show (if (truthyStr sid && (students.map (·.id)).contains sid
              && !acc.contains sid) = true then acc ++ [sid] else acc) = acc
            rw [if_neg h])
    · exact List.nodup_nil

theorem foldl_into_mem {β : Type} (P : String → Prop) :
    ∀ (l : List β) (f : List String → β → List String),
      (∀ acc b, b ∈ l → ∀ x ∈ f acc b, x ∈ acc ∨ P x) →
      ∀ (acc : List String) (x : String), x ∈ l.foldl f acc → x ∈ acc ∨ P x := by
  intro l
  induction l with
  | nil => intro f hf acc x hx; exact Or.inl hx
  | cons b rest ih =>
    intro f hf acc x hx
    simp only [List.foldl_cons] at hx
    rcases ih f (fun acc2 b2 hb2 => hf acc2 b2 (List.mem_cons_of_mem _ hb2)) _ x hx with
      h1 | h1
    · exact hf acc b (List.mem_cons_self _ _) x h1
    · exact Or.inr h1

theorem getOrderedStudentIds_subset (students : List Student) (seats : List (Option String)) :
    ∀ x ∈ getOrderedStudentIds students seats, x ∈ students.map (·.id) := by
  have hstep1 : ∀ (acc : List String) (seat : Option String) (y : String),
      y ∈ (match seat with
        | some sid =>
          if (truthyStr sid && (students.map (fun st : Student => st.id)).contains sid
              && !acc.contains sid) = true then acc ++ [sid] else acc
        | none => acc) →
        y ∈ acc ∨ y ∈ students.map (·.id) := by
    intro acc seat y hy
    cases seat with
    | none => exact Or.inl hy
    | some sid =>
      replace hy : y ∈ (if (truthyStr sid &&
          (students.map (fun st : Student => st.id)).contains sid
          && !acc.contains sid) = true then acc ++ [sid] else acc) := hy
      by_cases h : (truthyStr sid && (students.map (fun st : Student => st.id)).contains sid
          && !acc.contains sid) = true
      · rw [if_pos h] at hy
        rcases List.mem_append.1 hy with h1 | h1
        · exact Or.inl h1
        · right
          simp only [List.mem_singleton] at h1
          subst h1
          simp only [Bool.and_eq_true] at h
          exact List.mem_of_elem_eq_true h.1.2
      · rw [if_neg h] at hy; exact Or.inl hy
  have hstep2 : ∀ (acc : List String) (s : Student), s ∈ students → ∀ y ∈
      (if acc.contains s.id = true then acc else acc ++ [s.id]),
        y ∈ acc ∨ y ∈ students.map (·.id) := by
    intro acc s hs y hy
    by_cases h : acc.contains s.id = true
    · rw [if_pos h] at hy; exact Or.inl hy
    · rw [if_neg h] at hy
      rcases List.mem_append.1 hy with h1 | h1
      · exact Or.inl h1
      · right
        simp only [List.mem_singleton] at h1
        subst h1
        exact List.mem_map_of_mem _ hs
  intro x hx
  unfold getOrderedStudentIds at hx
  rcases foldl_into_mem (fun y => y ∈ students.map (·.id)) students _ hstep2 _ x hx with
    h2 | h2
  · rcases foldl_into seats _ (fun y => y ∈ students.map (·.id)) hstep1 _ x h2 with h3 | h3
    · simp at h3
    · exact h3
  · exact h2

theorem getOrderedStudentIds_mem (students : List Student) (seats : List (Option String))
    (s : Student) (hs : s ∈ students) :
    s.id ∈ getOrderedStudentIds students seats := by
  have key : ∀ (l : List Student) (acc : List String), s ∈ l ∨ s.id ∈ acc →
      s.id ∈ l.foldl
        (fun acc st => if acc.contains st.id = true then acc else acc ++ [st.id]) acc := by
    intro l
    induction l with
    | nil =>
      intro acc h
      rcases h with h | h
      · simp at h
      · exact h
    | cons t rest ih =>
      intro acc h
      simp only [List.foldl_cons]
      rcases h with h | h
      · rcases List.mem_cons.1 h with h1 | h1
        · subst h1
          apply ih
          right
          by_cases hc : acc.contains s.id = true
          · rw [if_pos hc]; exact List.mem_of_elem_eq_true hc
          · rw [if_neg hc]; simp
        · exact ih _ (Or.inl h1)
      · apply ih
        right
        by_cases hc : acc.contains t.id = true
        · rw [if_pos hc]; exact h
        · rw [if_neg hc]; exact List.mem_append_left _ h
  exact key students _ (Or.inl hs)

theorem getOrderedStudentIds_length_le (students : List Student)
    (seats : List (Option String)) :
    (getOrderedStudentIds students seats).length ≤ students.length := by
  have h1 := ((getOrderedStudentIds_nodup students seats).subperm
    (fun _ hx => getOrderedStudentIds_subset students seats _ hx)).length_le
  simpa using h1

theorem buildSeatsFromOrder_filterMap (ids : List String) (cap : Nat) :
    (buildSeatsFromOrder ids cap).filterMap id = ids.take cap := by
  simp [buildSeatsFromOrder, ← List.map_take, List.filterMap_map, Function.comp]

theorem setSlice_length {α : Type} :
    ∀ (vs l : List α) (i : Nat), (setSlice l i vs).length = l.length := by
  intro vs
  induction vs with
  | nil => intro l i; rfl
  | cons v vs2 ih =>
    intro l i
    show (setSlice (l.set i v) (i + 1) vs2).length = l.length
    rw [ih, List.length_set]

theorem setSlice_eq {α : Type} :
    ∀ (vs l : List α) (i : Nat), i + vs.length ≤ l.length →
      setSlice l i vs = l.take i ++ vs ++ l.drop (i + vs.length) := by
  intro vs
  induction vs with
  | nil =>
    intro l i h
    show l = l.take i ++ [] ++ l.drop (i + 0)
    simp [List.take_append_drop]
  | cons v vs2 ih =>
    intro l i h
    simp only [List.length_cons] at h
    have hi : i < l.length := by omega
    show setSlice (l.set i v) (i + 1) vs2 = _
    rw [ih (l.set i v) (i + 1) (by rw [List.length_set]; omega)]
    have hti : (l.take i).length = i := by simp; omega
    have hA : (l.set i v).take (i + 1) = l.take i ++ [v] := by
      rw [List.set_eq_take_cons_drop v hi, List.take_append_eq_append_take, List.take_take,
        hti]
      rw [show min (i + 1) i = i from by omega, show i + 1 - i = 1 from by omega]
      simp
    have hB : (l.set i v).drop (i + 1 + vs2.length) =
        l.drop (i + (vs2.length + 1)) := by
      rw [List.drop_set_of_lt _ _ (by omega)]
      congr 1
      omega
    rw [hA, hB]
    simp

theorem append_swap_perm {α : Type} (A E F : List α) (x y : α) :
    (A ++ (y :: (E ++ (x :: F)))).Perm (A ++ (x :: (E ++ (y :: F)))) := by
  apply List.Perm.append_left
  exact (List.Perm.cons y (@List.perm_middle α x E F)).trans
    ((List.Perm.swap x y (E ++ F)).trans (List.Perm.cons x (@List.perm_middle α y E F).symm))

theorem set_set_swap_perm_lt {α : Type} (l : List α) (i j : Nat) (d : α)
    (hij : i < j) (hj : j < l.length) :
    ((l.set i (l.getD j d)).set j (l.getD i d)).Perm l := by
  have hi : i < l.length := by omega
  have hd : (l.drop (i + 1)).length = l.length - (i + 1) := by simp
  have hj2 : j - (i + 1) < (l.drop (i + 1)).length := by omega
  have e1 : l.set i (l.getD j d) = (l.take i ++ [l.getD j d]) ++ l.drop (i + 1) := by
    rw [List.set_eq_take_cons_drop _ hi]; simp
  have hlen1 : (l.take i ++ [l.getD j d]).length = i + 1 := by simp; omega
  rw [e1, List.set_append_right _ _ (by omega), hlen1]
  rw [List.set_eq_take_cons_drop _ hj2]
  have hvj : l.getD j d = (l.drop (i + 1)).getD (j - (i + 1)) d := by
    rw [List.getD_eq_getElem _ _ hj, List.getD_eq_getElem _ _ hj2]
    rw [List.getElem_drop]
    congr 1
    omega
  have hdec : l = l.take i ++
      (l.getD i d :: ((l.drop (i + 1)).take (j - (i + 1)) ++
        ((l.drop (i + 1)).getD (j - (i + 1)) d :: (l.drop (i + 1)).drop (j - (i + 1) + 1)))) := by
    conv_lhs => rw [← List.take_append_drop i l]
    congr 1
    rw [List.drop_eq_getElem_cons hi]
    rw [← List.getD_eq_getElem l d hi]
    congr 1
    conv_lhs => rw [← List.take_append_drop (j - (i + 1)) (l.drop (i + 1))]
    congr 1
    rw [List.drop_eq_getElem_cons hj2]
    rw [← List.getD_eq_getElem _ d hj2]
  have e2 : (l.take i ++ [l.getD j d]) ++
        ((l.drop (i + 1)).take (j - (i + 1)) ++
          (l.getD i d :: (l.drop (i + 1)).drop (j - (i + 1) + 1))) =
      l.take i ++ (l.getD j d ::
          ((l.drop (i + 1)).take (j - (i + 1)) ++
            (l.getD i d :: (l.drop (i + 1)).drop (j - (i + 1) + 1)))) := by simp
  rw [e2, hvj]
  refine (append_swap_perm _ _ _ (l.getD i d)
    ((l.drop (i + 1)).getD (j - (i + 1)) d)).trans ?_
  exact List.Perm.of_eq hdec.symm

theorem set_set_swap_perm {α : Type} (l : List α) (i j : Nat) (d : α)
    (hij : i ≠ j) (hi : i < l.length) (hj : j < l.length) :
    ((l.set i (l.getD j d)).set j (l.getD i d)).Perm l := by
  rcases Nat.lt_or_ge i j with h | h
  · exact set_set_swap_perm_lt l i j d h hj
  · have h2 : j < i := by omega
    rw [List.set_comm _ _ _ hij]
    exact set_set_swap_perm_lt l j i d h2 hi

theorem rotateOnceList_perm {α : Type} (l : List α) : (rotateOnceList l).Perm l := by
  rw [rotateOnceList]
  refine (@List.perm_append_comm α (l.drop 1) (l.take 1)).trans ?_
  rw [List.take_append_drop]

theorem filterMap_set_le (l : List (Option String)) (i : Nat) (a : String) :
    (((l.set i (some a)).filterMap id : List String) : Multiset String) ≤
      a ::ₘ ((l.filterMap id : List String) : Multiset String) := by
  induction l generalizing i with
  | nil => simp
  | cons x xs ih =>
    cases i with
    | zero =>
      cases x with
      | none => simp [List.filterMap_cons]
      | some b =>
        simp only [List.set_cons_zero, List.filterMap_cons, id]
        rw [← Multiset.cons_coe, ← Multiset.cons_coe]
        exact Multiset.cons_le_cons a (Multiset.le_cons_self _ _)
    | succ i2 =>
      cases x with
      | none => simpa [List.filterMap_cons] using ih i2
      | some b =>
        simp only [List.set_cons_succ, List.filterMap_cons, id]
        rw [← Multiset.cons_coe, ← Multiset.cons_coe, Multiset.cons_swap]
        exact Multiset.cons_le_cons b (ih i2)

theorem placeCenteredAux_fm_le (seats : List (Option String)) (ids : List String)
    (s w : Nat) (cl cr : Int) (u : Bool) :
    (((placeCenteredAux seats ids s w cl cr u).filterMap id : List String) : Multiset String) ≤
      ((seats.filterMap id : List String) : Multiset String) + (ids : Multiset String) := by
  induction seats, ids, s, w, cl, cr, u using placeCenteredAux.induct
  case case1 seats s w cl cr u =>
    rw [placeCenteredAux_nil]
    simp
  case case2 seats s w cl cr u a rest h =>
    rw [placeCenteredAux, dif_pos h]
    exact Multiset.le_add_right _ _
  case case3 seats s w cl cr a rest h hcl ih =>
    rw [placeCenteredAux, dif_neg h, dif_pos rfl, dif_pos hcl]
    refine le_trans ih ?_
    refine le_trans (add_le_add_right (filterMap_set_le seats (s + cl.toNat) a) _) ?_
    rw [Multiset.cons_add, ← Multiset.cons_coe, Multiset.add_cons]
  case case4 seats s w cl cr a rest h hcl ih =>
    rw [placeCenteredAux, dif_neg h, dif_pos rfl, dif_neg hcl]
    exact ih
  case case5 seats s w cl cr u a rest h hu hcr ih =>
    rw [placeCenteredAux, dif_neg h, dif_neg hu, dif_pos hcr]
    refine le_trans ih ?_
    refine le_trans (add_le_add_right (filterMap_set_le seats (s + cr.toNat) a) _) ?_
    rw [Multiset.cons_add, ← Multiset.cons_coe, Multiset.add_cons]
  case case6 seats s w cl cr u a rest h hu hcr ih =>
    rw [placeCenteredAux, dif_neg h, dif_neg hu, dif_neg hcr]
    exact ih

theorem createEmptySeats_filterMap (n : Nat) :
    (createEmptySeats n).filterMap id = ([] : List String) := by
  simp [createEmptySeats]

theorem padWithNull_length (rot : List String) (len : Nat) :
    (padWithNull rot len).length = len := by
  simp [padWithNull]

theorem sliceOf_length (seats : List (Option String)) (start len : Nat) :
    (sliceOf seats start len).length = len := by
  simp [sliceOf]

theorem padWithNull_filterMap (rot : List String) (len : Nat) (h : rot.length ≤ len) :
    (padWithNull rot len).filterMap id = rot := by
  rw [padWithNull_eq _ _ h]
  simp [List.filterMap_map, Function.comp]

theorem placeCentered_fm_le (seats : List (Option String)) (ids : List String) (s w : Nat) :
    (((placeCentered seats ids s w).filterMap id : List String) : Multiset String) ≤
      ((seats.filterMap id : List String) : Multiset String) + (ids : Multiset String) := by
  rw [placeCentered_eq_aux]
  exact placeCenteredAux_fm_le _ _ _ _ _ _ _

theorem placeTwice_fm_nodup (cap : Nat) (l1 l2 : List String) (hn : (l1 ++ l2).Nodup)
    (s1 w1 s2 w2 : Nat) :
    ((placeCentered (placeCentered (createEmptySeats cap) l1 s1 w1) l2 s2 w2).filterMap
      id).Nodup := by
  have h2 := placeCentered_fm_le (createEmptySeats cap) l1 s1 w1
  rw [createEmptySeats_filterMap] at h2
  have h1 := placeCentered_fm_le (placeCentered (createEmptySeats cap) l1 s1 w1) l2 s2 w2
  have h3 := le_trans h1 (add_le_add_right h2 _)
  have h4 : ((([] : List String) : Multiset String) + (l1 : Multiset String)) +
      (l2 : Multiset String) = ((l1 ++ l2 : List String) : Multiset String) := by
    simp
  rw [h4] at h3
  have h5 : (((l1 ++ l2 : List String)) : Multiset String).Nodup := by
    rw [Multiset.coe_nodup]; exact hn
  have h6 := Multiset.nodup_of_le h3 h5
  rwa [Multiset.coe_nodup] at h6

theorem withLayout_filterMap_nodup (config : TimeModeConfig) (mode : LayoutMode)
    (students : List Student) :
    ((withLayout config mode students).seats.filterMap id).Nodup := by
  cases mode with
  | GROUPS =>
    show ((buildSeatsFromOrder _ _).filterMap id).Nodup
    rw [buildSeatsFromOrder_filterMap]
    exact List.Sublist.nodup (List.take_sublist _ _) (getOrderedStudentIds_nodup _ _)
  | THREE_ROWS =>
    show ((buildSeatsFromOrder _ _).filterMap id).Nodup
    rw [buildSeatsFromOrder_filterMap]
    exact List.Sublist.nodup (List.take_sublist _ _) (getOrderedStudentIds_nodup _ _)
  | ARC =>
    exact placeTwice_fm_nodup _ _ _
      (by rw [List.take_append_drop]; exact getOrderedStudentIds_nodup _ _) _ _ _ _

theorem slice_decomp (l : List (Option String)) (start len : Nat)
    (h : start + len ≤ l.length) :
    l = l.take start ++ sliceOf l start len ++ l.drop (start + len) := by
  rw [sliceOf_eq_drop_take _ _ _ h]
  conv_lhs => rw [← List.take_append_drop start l]
  rw [List.append_assoc]
  congr 1
  conv_lhs => rw [← List.take_append_drop len (l.drop start)]
  congr 1
  rw [List.drop_drop]

theorem foldl_fmperm_of_step {β : Type} (n : Nat)
    (f : List (Option String) → β → List (Option String)) :
    ∀ (idxs : List β),
      (∀ acc b, b ∈ idxs → acc.length = n →
        ((f acc b).filterMap id).Perm (acc.filterMap id) ∧ (f acc b).length = n) →
      ∀ acc, acc.length = n → ((idxs.foldl f acc).filterMap id).Perm (acc.filterMap id) := by
  intro idxs
  induction idxs with
  | nil => intro _ acc _; exact List.Perm.refl _
  | cons b rest ih =>
    intro hstep acc h
    simp only [List.foldl_cons]
    have h1 := hstep acc b (List.mem_cons_self _ _) h
    exact (ih (fun a2 b2 hb2 => hstep a2 b2 (List.mem_cons_of_mem _ hb2)) _ h1.2).trans h1.1

theorem rotateGroupStep_length (seats : List (Option String)) (g : Nat) :
    (rotateGroupStep seats g).length = seats.length := by
  unfold rotateGroupStep
  split
  · rw [setSlice_length]
  · rfl

theorem rotateGroupStep_perm (seats : List (Option String)) (g : Nat)
    (hb : g * 6 + 6 ≤ seats.length) :
    ((rotateGroupStep seats g).filterMap id).Perm (seats.filterMap id) := by
  unfold rotateGroupStep
  by_cases hc : 1 < ((sliceOf seats (g * 6) 6).filterMap id).length
  · rw [if_pos hc]
    have hrotlen : (rotateOnceList ((sliceOf seats (g * 6) 6).filterMap id)).length ≤ 6 := by
      rw [rotateOnceList_length]
      calc ((sliceOf seats (g * 6) 6).filterMap id).length
          ≤ (sliceOf seats (g * 6) 6).length := List.length_filterMap_le _ _
        _ = 6 := sliceOf_length _ _ _
    rw [setSlice_eq _ _ _ (by rw [padWithNull_length]; exact hb)]
    rw [padWithNull_length]
    rw [List.filterMap_append, List.filterMap_append]
    rw [padWithNull_filterMap _ _ hrotlen]
    have hrhs : seats.filterMap id =
        (seats.take (g * 6)).filterMap id ++ (sliceOf seats (g * 6) 6).filterMap id ++
          (seats.drop (g * 6 + 6)).filterMap id := by
      conv_lhs => rw [slice_decomp seats (g * 6) 6 hb]
      rw [List.filterMap_append, List.filterMap_append]
    rw [hrhs]
    exact ((List.Perm.refl _).append (rotateOnceList_perm _)).append (List.Perm.refl _)
  · rw [if_neg hc]

theorem getGroupCountBySize_le (n : Nat) : getGroupCountBySize n ≤ 6 := by
  unfold getGroupCountBySize
  split <;> omega

theorem getActiveGroupIndices_lt (gc : Nat) (hgc : gc ≤ 6) :
    ∀ g ∈ getActiveGroupIndices gc, g < 6 := by
  unfold getActiveGroupIndices
  by_cases h : gc = 4
  · rw [if_pos h]
    intro g hg
    simp at hg
    omega
  · rw [if_neg h]
    intro g hg
    have := List.mem_range.1 hg
    omega

theorem withLayout_groups_len (config : TimeModeConfig) (students : List Student) :
    (withLayout config .GROUPS students).seats.length = 36 := by
  show (buildSeatsFromOrder _ _).length = 36
  rw [buildSeatsFromOrder_length]
  rfl

theorem rotateGroupLayout_fm_perm (config : TimeModeConfig) (students : List Student) :
    ((rotateGroupLayout config students).seats.filterMap id).Perm
      ((withLayout config .GROUPS students).seats.filterMap id) := by
  show (((getActiveGroupIndices (getGroupCountBySize students.length)).foldl rotateGroupStep
    (withLayout config .GROUPS students).seats).filterMap id).Perm _
  exact foldl_fmperm_of_step 36 rotateGroupStep
    (getActiveGroupIndices (getGroupCountBySize students.length))
    (fun acc g hg hlen =>
      ⟨rotateGroupStep_perm acc g (by
        have h6 := getActiveGroupIndices_lt _ (getGroupCountBySize_le students.length) g hg
        omega),
       by rw [rotateGroupStep_length, hlen]⟩)
    (withLayout config .GROUPS students).seats (withLayout_groups_len config students)

theorem rotateHalfIf_fm_perm (h : List (Option String)) :
    ((if 1 < (h.filterMap id).length then
      padWithNull (rotateOnceList (h.filterMap id)) h.length
    else h).filterMap id).Perm (h.filterMap id) := by
  by_cases hc : 1 < (h.filterMap id).length
  · rw [if_pos hc, padWithNull_filterMap _ _
      (by rw [rotateOnceList_length]; exact List.length_filterMap_le _ _)]
    exact rotateOnceList_perm _
  · rw [if_neg hc]

theorem rotateRowHalves_fm_perm (seats : List (Option String)) (cols row : Nat) :
    ((rotateRowHalves seats cols row).filterMap id).Perm
      ((sliceOf seats (row * cols) cols).filterMap id) := by
  unfold rotateRowHalves
  rw [List.filterMap_append]
  refine ((rotateHalfIf_fm_perm _).append (rotateHalfIf_fm_perm _)).trans ?_
  rw [← List.filterMap_append, List.take_append_drop]

theorem rows3_decomp (l : List (Option String)) (c : Nat) (h : l.length = 3 * c) :
    l = sliceOf l 0 c ++ sliceOf l c c ++ sliceOf l (2 * c) c := by
  rw [sliceOf_eq_drop_take _ _ _ (by omega), sliceOf_eq_drop_take _ _ _ (by omega),
    sliceOf_eq_drop_take _ _ _ (by omega)]
  rw [List.drop_zero]
  conv_lhs => rw [← List.take_append_drop c l]
  rw [List.append_assoc]
  congr 1
  conv_lhs => rw [← List.take_append_drop c (l.drop c)]
  congr 1
  rw [List.drop_drop]
  rw [show c + c = 2 * c from by omega]
  exact (List.take_of_length_le (by simp; omega)).symm

theorem rotateThreeRows_fm_perm (config : TimeModeConfig) (students : List Student) :
    ((rotateThreeRows config students).seats.filterMap id).Perm
      ((withLayout config .THREE_ROWS students).seats.filterMap id) := by
  have hcols : (withLayout config .THREE_ROWS students).cols.toNat =
      (getLayoutMetrics .THREE_ROWS students.length).cols := by
    rw [withLayout_threeRows_cols]; exact Int.toNat_ofNat _
  have hlen : (withLayout config .THREE_ROWS students).seats.length =
      3 * (withLayout config .THREE_ROWS students).cols.toNat := by
    rw [hcols, withLayout_threeRows_len]
  show ((rotateRowHalves (withLayout config .THREE_ROWS students).seats
    (withLayout config .THREE_ROWS students).cols.toNat 1 ++
    rotateRowHalves (withLayout config .THREE_ROWS students).seats
    (withLayout config .THREE_ROWS students).cols.toNat 2 ++
    rotateRowHalves (withLayout config .THREE_ROWS students).seats
    (withLayout config .THREE_ROWS students).cols.toNat 0).filterMap id).Perm _
  rw [List.filterMap_append, List.filterMap_append]
  have h1 := rotateRowHalves_fm_perm (withLayout config .THREE_ROWS students).seats
    (withLayout config .THREE_ROWS students).cols.toNat 1
  have h2 := rotateRowHalves_fm_perm (withLayout config .THREE_ROWS students).seats
    (withLayout config .THREE_ROWS students).cols.toNat 2
  have h0 := rotateRowHalves_fm_perm (withLayout config .THREE_ROWS students).seats
    (withLayout config .THREE_ROWS students).cols.toNat 0
  refine (((h1.append h2).append h0)).trans ?_
  have hrhs : (withLayout config .THREE_ROWS students).seats.filterMap id =
      (sliceOf (withLayout config .THREE_ROWS students).seats 0
        (withLayout config .THREE_ROWS students).cols.toNat).filterMap id ++
      ((sliceOf (withLayout config .THREE_ROWS students).seats
        (withLayout config .THREE_ROWS students).cols.toNat
        (withLayout config .THREE_ROWS students).cols.toNat).filterMap id ++
      (sliceOf (withLayout config .THREE_ROWS students).seats
        (2 * (withLayout config .THREE_ROWS students).cols.toNat)
        (withLayout config .THREE_ROWS students).cols.toNat).filterMap id) := by
    conv_lhs => rw [rows3_decomp _ _ hlen]
    rw [List.filterMap_append, List.filterMap_append, List.append_assoc]
  rw [hrhs]
  rw [show (1 : Nat) * (withLayout config .THREE_ROWS students).cols.toNat =
    (withLayout config .THREE_ROWS students).cols.toNat from by omega]
  rw [show (0 : Nat) * (withLayout config .THREE_ROWS students).cols.toNat = 0 from by omega]
  exact List.perm_append_comm

theorem truthyIds_sublist (l : List (Option String)) :
    List.Sublist (truthyIds l) (l.filterMap id) := by
  induction l with
  | nil => simp [truthyIds]
  | cons x xs ih =>
    cases x with
    | none => simpa [truthyIds, List.filterMap_cons] using ih
    | some s =>
      by_cases hs : truthyStr s = true
      · simpa [truthyIds, List.filterMap_cons, hs] using List.Sublist.cons₂ s ih
      · simpa [truthyIds, List.filterMap_cons, hs] using List.Sublist.cons s ih

theorem placeCenteredAux_length (seats : List (Option String)) (ids : List String)
    (s w : Nat) (cl cr : Int) (u : Bool) :
    (placeCenteredAux seats ids s w cl cr u).length = seats.length := by
  induction seats, ids, s, w, cl, cr, u using placeCenteredAux.induct
  case case1 seats s w cl cr u => rw [placeCenteredAux_nil]
  case case2 seats s w cl cr u a rest h => rw [placeCenteredAux, dif_pos h]
  case case3 seats s w cl cr a rest h hcl ih =>
    rw [placeCenteredAux, dif_neg h, dif_pos rfl, dif_pos hcl, ih, List.length_set]
  case case4 seats s w cl cr a rest h hcl ih =>
    rw [placeCenteredAux, dif_neg h, dif_pos rfl, dif_neg hcl]; exact ih
  case case5 seats s w cl cr u a rest h hu hcr ih =>
    rw [placeCenteredAux, dif_neg h, dif_neg hu, dif_pos hcr, ih, List.length_set]
  case case6 seats s w cl cr u a rest h hu hcr ih =>
    rw [placeCenteredAux, dif_neg h, dif_neg hu, dif_neg hcr]; exact ih

theorem placeCentered_length (seats : List (Option String)) (ids : List String)
    (s w : Nat) : (placeCentered seats ids s w).length = seats.length := by
  rw [placeCentered_eq_aux]
  exact placeCenteredAux_length _ _ _ _ _ _ _

theorem withLayout_arc_len (config : TimeModeConfig) (students : List Student) :
    (withLayout config .ARC students).seats.length = 36 := by
  show (placeCentered (placeCentered (createEmptySeats _) _ 0 18) _ 18 18).length = 36
  rw [placeCentered_length, placeCentered_length]
  rfl

theorem rows2_decomp (l : List (Option String)) (h : l.length = 36) :
    l = sliceOf l 0 18 ++ sliceOf l 18 18 := by
  rw [sliceOf_eq_drop_take _ _ _ (by omega), sliceOf_eq_drop_take _ _ _ (by omega),
    List.drop_zero]
  conv_lhs => rw [← List.take_append_drop 18 l]
  congr 1
  exact (List.take_of_length_le (by simp; omega)).symm

theorem rotateArcRowInto_eq (ns s : List (Option String)) (r : Nat) :
    ∃ ids2 : List String, rotateArcRowInto ns s r = placeCentered s ids2 (r * 18) 18 ∧
      ids2.Perm (truthyIds (sliceOf ns (r * 18) 18)) := by
  unfold rotateArcRowInto
  by_cases hc : 1 < (truthyIds (sliceOf ns (r * 18) 18)).length
  · exact ⟨_, by rw [if_pos hc], rotateOnceList_perm _⟩
  · exact ⟨_, by rw [if_neg hc], List.Perm.refl _⟩

theorem rotateArcLayout_fm_nodup (config : TimeModeConfig) (students : List Student) :
    ((rotateArcLayout config students).seats.filterMap id).Nodup := by
  have hN : ((withLayout config .ARC students).seats.filterMap id).Nodup :=
    withLayout_filterMap_nodup config .ARC students
  have hlen : (withLayout config .ARC students).seats.length = 36 :=
    withLayout_arc_len _ _
  obtain ⟨ids0, he0, hp0⟩ := rotateArcRowInto_eq (withLayout config .ARC students).seats
    (createEmptySeats (withLayout config .ARC students).seats.length) 0
  obtain ⟨ids1, he1, hp1⟩ := rotateArcRowInto_eq (withLayout config .ARC students).seats
    (rotateArcRowInto (withLayout config .ARC students).seats
      (createEmptySeats (withLayout config .ARC students).seats.length) 0) 1
  show ((rotateArcRowInto (withLayout config .ARC students).seats
    (rotateArcRowInto (withLayout config .ARC students).seats
      (createEmptySeats (withLayout config .ARC students).seats.length) 0) 1).filterMap
        id).Nodup
  rw [he1, he0]
  have h1 := placeCentered_fm_le (placeCentered
    (createEmptySeats (withLayout config .ARC students).seats.length) ids0 (0 * 18) 18)
    ids1 (1 * 18) 18
  have h0 := placeCentered_fm_le
    (createEmptySeats (withLayout config .ARC students).seats.length) ids0 (0 * 18) 18
  rw [createEmptySeats_filterMap] at h0
  have hb := le_trans h1 (add_le_add_right h0 _)
  have hle0 : (ids0 : Multiset String) ≤
      ↑((sliceOf (withLayout config .ARC students).seats (0 * 18) 18).filterMap id) := by
    rw [Multiset.coe_eq_coe.2 hp0]
    exact Multiset.coe_le.2 (truthyIds_sublist _).subperm
  have hle1 : (ids1 : Multiset String) ≤
      ↑((sliceOf (withLayout config .ARC students).seats (1 * 18) 18).filterMap id) := by
    rw [Multiset.coe_eq_coe.2 hp1]
    exact Multiset.coe_le.2 (truthyIds_sublist _).subperm
  have hb2 := le_trans hb (add_le_add (add_le_add_left hle0 _) hle1)
  have htot : ((([] : List String) : Multiset String) +
      ↑((sliceOf (withLayout config .ARC students).seats (0 * 18) 18).filterMap id)) +
      ↑((sliceOf (withLayout config .ARC students).seats (1 * 18) 18).filterMap id) =
      ↑((withLayout config .ARC students).seats.filterMap id) := by
    have hd := rows2_decomp (withLayout config .ARC students).seats hlen
    conv_rhs => rw [hd]
    rw [List.filterMap_append]
    rw [show (0 : Nat) * 18 = 0 from rfl, show (1 : Nat) * 18 = 18 from rfl]
    simp
  rw [htot] at hb2
  have h6 := Multiset.nodup_of_le hb2 (Multiset.coe_nodup.2 hN)
  rwa [Multiset.coe_nodup] at h6

theorem set_getElem_self_list {α : Type} (l : List α) (i : Nat) (h : i < l.length) :
    l.set i l[i] = l := by
  apply List.ext_getElem?
  intro j
  by_cases hj : j = i
  · subst hj
    rw [List.getElem?_set_self']
    rw [List.getElem?_eq_getElem h]
    rfl
  · rw [List.getElem?_set_ne (Ne.symm hj)]

theorem listSwap_perm (l : List String) (i j : Nat) (hi : i < l.length)
    (hj : j < l.length) : (listSwap l i j).Perm l := by
  unfold listSwap
  by_cases hij : i = j
  · subst hij
    rw [List.set_set, List.getD_eq_getElem _ _ hi, set_getElem_self_list _ _ hi]
  · exact set_set_swap_perm l i j "" hij hi hj

theorem foldl_perm_of_step {α β : Type} (n : Nat) (f : List α → β → List α) :
    ∀ (idxs : List β),
      (∀ acc b, b ∈ idxs → acc.length = n → (f acc b).Perm acc) →
      ∀ acc, acc.length = n → (idxs.foldl f acc).Perm acc := by
  intro idxs
  induction idxs with
  | nil => intro _ acc _; exact List.Perm.refl _
  | cons b rest ih =>
    intro hstep acc h
    simp only [List.foldl_cons]
    have h1 := hstep acc b (List.mem_cons_self _ _) h
    have h2 : (f acc b).length = n := by rw [h1.length_eq, h]
    exact (ih (fun a2 b2 hb2 => hstep a2 b2 (List.mem_cons_of_mem _ hb2)) _ h2).trans h1

theorem fisherYates_perm (rand : Nat → Nat) (l : List String) :
    (fisherYates rand l).Perm l := by
  unfold fisherYates
  refine foldl_perm_of_step l.length _ _ ?_ l rfl
  intro acc i hi hlen
  have hi2 : i < l.length := by
    have h1 := List.mem_reverse.1 hi
    exact List.mem_range.1 (List.mem_of_mem_drop h1)
  exact listSwap_perm acc i (rand i % (i + 1)) (by omega)
    (by have := Nat.mod_lt (rand i) (show 0 < i + 1 by omega); omega)

theorem zip_map_snd_sublist {α β : Type} :
    ∀ (l1 : List α) (l2 : List β), List.Sublist ((l1.zip l2).map Prod.snd) l2 := by
  intro l1
  induction l1 with
  | nil => intro l2; simp
  | cons a l1t ih =>
    intro l2
    cases l2 with
    | nil => simp
    | cons b l2t => simpa using List.Sublist.cons₂ b (ih l2t)

theorem classNodup_setCfg (c : Classroom) (tm : TimeMode) (cfg : TimeModeConfig)
    (hc : ClassNodup c) (hcfg : SeatsNodup cfg) : ClassNodup (setCfg c tm cfg) := by
  cases tm
  · exact ⟨hcfg, hc.2⟩
  · exact ⟨hc.1, hcfg⟩

theorem take_cons_drop_self (seats : List (Option String)) (i : Nat)
    (hi : i < seats.length) :
    seats = seats.take i ++ seats[i] :: seats.drop (i + 1) := by
  conv_lhs => rw [← List.take_append_drop i seats]
  rw [List.drop_eq_getElem_cons hi]

theorem clearSeat_fm_sublist (seats : List (Option String)) (i : Nat)
    (hi : i < seats.length) :
    List.Sublist ((seats.set i none).filterMap id) (seats.filterMap id) := by
  rw [List.set_eq_take_cons_drop _ hi]
  conv_rhs => rw [take_cons_drop_self seats i hi]
  rw [List.filterMap_append, List.filterMap_append, List.filterMap_cons, List.filterMap_cons]
  simp only [id]
  cases seats[i] with
  | none => exact List.Sublist.refl _
  | some v =>
    exact (List.append_sublist_append_left _).mpr (List.sublist_cons_self _ _)

theorem map_dropId_filterMap (seats : List (Option String)) (sid : String) :
    (seats.map (fun seat => if seat = some sid then none else seat)).filterMap id =
      (seats.filterMap id).filter (fun x => !(x == sid)) := by
  induction seats with
  | nil => rfl
  | cons o rest ih =>
    cases o with
    | none => simpa [List.filterMap_cons] using ih
    | some v =>
      by_cases hv : v = sid
      · subst hv
        simp [List.filterMap_cons, ih]
      · simp [List.filterMap_cons, ih, hv]

theorem placeStudent_fm_nodup (seats : List (Option String)) (sid : String) (i : Nat)
    (hi : i < seats.length) (hn : (seats.filterMap id).Nodup) :
    (((seats.map (fun seat => if seat = some sid then none else seat)).set i
      (some sid)).filterMap id).Nodup := by
  set m := seats.map (fun seat => if seat = some sid then none else seat) with hm
  have hmlen : m.length = seats.length := by rw [hm]; exact List.length_map _ _
  have hmn : (m.filterMap id).Nodup := by
    rw [hm, map_dropId_filterMap]
    exact List.Nodup.filter _ hn
  have hms : sid ∉ m.filterMap id := by
    rw [hm, map_dropId_filterMap]
    intro hmem
    have := List.of_mem_filter hmem
    simp at this
  have h1 : ((m.set i none).filterMap id).Nodup :=
    (clearSeat_fm_sublist m i (by omega)).nodup hmn
  have h2 : sid ∉ (m.set i none).filterMap id :=
    fun hmem => hms ((clearSeat_fm_sublist m i (by omega)).subset hmem)
  have he : (m.set i none).filterMap id =
      (m.take i).filterMap id ++ (m.drop (i + 1)).filterMap id := by
    rw [List.set_eq_take_cons_drop _ (by omega), List.filterMap_append]
    simp
  rw [he] at h1 h2
  rw [List.set_eq_take_cons_drop _ (by omega), List.filterMap_append]
  have he2 : (some sid :: m.drop (i + 1)).filterMap id =
      sid :: (m.drop (i + 1)).filterMap id := by simp
  rw [he2, List.nodup_middle, List.nodup_cons]
  exact ⟨h2, h1⟩

theorem classNodup_getCfg (c : Classroom) (tm : TimeMode) (hc : ClassNodup c) :
    SeatsNodup (getCfg c tm) := by
  cases tm
  · exact hc.1
  · exact hc.2

/-- Claim C5: seat uniqueness is an invariant.  Starting from a classroom whose
configs contain no duplicate ids (and whose roster ids are the distinct
generated ids the program produces, `freshIds` likewise), after any single
public operation no student id occurs in two different seats of the same time
mode's config. -/
theorem seat_uniqueness_ops (freshIds : List String) (rand : Nat → Nat) (nowT : String)
    (c : Classroom) (names : List String) (mode : LayoutMode) (i j : Int) (sid : String)
    (tm : TimeMode) (hc : ClassNodup c) (hfresh : freshIds.Nodup)
    (hroster : (c.students.map (fun s => s.id)).Nodup) :
    ClassNodup (replaceStudents freshIds nowT c names tm) ∧
    ClassNodup (changeLayoutMode nowT c mode tm) ∧
    ClassNodup (swapSeatAssignments nowT c i j tm) ∧
    ClassNodup (clearSeat nowT c i tm) ∧
    ClassNodup (placeStudentInSeat nowT c sid i tm) ∧
    ClassNodup (rotateSeatsOnce nowT c tm) ∧
    ClassNodup (randomizeSeats rand nowT c tm) := by
  refine ⟨?_, ?_, ?_, ?_, ?_, ?_, ?_⟩
  · simp only [replaceStudents]
    refine classNodup_setCfg _ _ _ hc ?_
    show ((buildSeatsFromOrder _ _).filterMap id).Nodup
    rw [buildSeatsFromOrder_filterMap]
    refine List.Sublist.nodup ?_ hfresh
    refine List.Sublist.trans (List.take_sublist _ _) ?_
    rw [show ((((uniqueNames names).take 36).zip freshIds).map
        (fun p => Student.mk p.2 p.1)).map (fun s => s.id) =
      (((uniqueNames names).take 36).zip freshIds).map Prod.snd from by
        rw [List.map_map]; rfl]
    exact zip_map_snd_sublist _ _
  · simp only [changeLayoutMode]
    exact classNodup_setCfg _ _ _ hc (withLayout_filterMap_nodup _ _ _)
  · simp only [swapSeatAssignments]
    by_cases h : i = j ∨ i < 0 ∨ j < 0 ∨ ((getCfg c tm).seats.length : Int) ≤ i ∨
        ((getCfg c tm).seats.length : Int) ≤ j
    · rw [if_pos h]; exact hc
    · rw [if_neg h]
      push_neg at h
      refine classNodup_setCfg _ _ _ hc ?_
      show ((((getCfg c tm).seats.set i.toNat _).set j.toNat _).filterMap id).Nodup
      have hperm := set_set_swap_perm (getCfg c tm).seats i.toNat j.toNat none
        (by omega) (by omega) (by omega)
      exact (hperm.filterMap id).nodup_iff.mpr (classNodup_getCfg c tm hc)
  · simp only [clearSeat]
    by_cases h : i < 0 ∨ ((getCfg c tm).seats.length : Int) ≤ i
    · rw [if_pos h]; exact hc
    · rw [if_neg h]
      push_neg at h
      refine classNodup_setCfg _ _ _ hc ?_
      show (((getCfg c tm).seats.set i.toNat none).filterMap id).Nodup
      exact (clearSeat_fm_sublist _ _ (by omega)).nodup (classNodup_getCfg c tm hc)
  · simp only [placeStudentInSeat]
    by_cases h : i < 0 ∨ ((getCfg c tm).seats.length : Int) ≤ i
    · rw [if_pos h]; exact hc
    · rw [if_neg h]
      push_neg at h
      by_cases h2 : !(c.students.any (fun s => s.id = sid))
      · rw [if_pos h2]; exact hc
      · rw [if_neg h2]
        refine classNodup_setCfg _ _ _ hc ?_
        show ((((getCfg c tm).seats.map
          (fun seat => if seat = some sid then none else seat)).set i.toNat
          (some sid)).filterMap id).Nodup
        exact placeStudent_fm_nodup _ _ _ (by omega) (classNodup_getCfg c tm hc)
  · simp only [rotateSeatsOnce]
    by_cases h : getAssignedCount (getCfg c tm) ≤ 1
    · rw [if_pos h]; exact hc
    · rw [if_neg h]
      cases hmode : (getCfg c tm).layoutMode with
      | GROUPS =>
        refine classNodup_setCfg _ _ _ hc ?_
        exact (rotateGroupLayout_fm_perm _ _).nodup_iff.mpr
          (withLayout_filterMap_nodup _ _ _)
      | THREE_ROWS =>
        refine classNodup_setCfg _ _ _ hc ?_
        exact (rotateThreeRows_fm_perm _ _).nodup_iff.mpr
          (withLayout_filterMap_nodup _ _ _)
      | ARC =>
        refine classNodup_setCfg _ _ _ hc ?_
        exact rotateArcLayout_fm_nodup _ _
  · simp only [randomizeSeats]
    have hrand : (fisherYates rand (c.students.map (fun s => s.id))).Nodup :=
      (fisherYates_perm rand _).nodup_iff.mpr hroster
    cases hmode : (getCfg c tm).layoutMode with
    | GROUPS =>
      refine classNodup_setCfg _ _ _ hc ?_
      show ((buildSeatsFromOrder _ _).filterMap id).Nodup
      rw [buildSeatsFromOrder_filterMap]
      exact List.Sublist.nodup (List.take_sublist _ _) hrand
    | THREE_ROWS =>
      refine classNodup_setCfg _ _ _ hc ?_
      show ((buildSeatsFromOrder _ _).filterMap id).Nodup
      rw [buildSeatsFromOrder_filterMap]
      exact List.Sublist.nodup (List.take_sublist _ _) hrand
    | ARC =>
      refine classNodup_setCfg _ _ _ hc ?_
      refine placeTwice_fm_nodup _ _ _ ?_ _ _ _ _
      rw [List.take_append_drop]
      exact hrand

/-- Witness for C5: a two-student GROUPS classroom with distinct ids. -/
theorem seat_uniqueness_ops_witness :
    (ClassNodup staleClassroom ∧ (["n1", "n2"] : List String).Nodup ∧
      (staleClassroom.students.map (fun s => s.id)).Nodup) ∧
    (ClassNodup (replaceStudents ["n1", "n2"] "T4" staleClassroom ["E", "F"]
        TimeMode.weekday) ∧
      ClassNodup (changeLayoutMode "T4" staleClassroom LayoutMode.GROUPS
        TimeMode.weekday) ∧
      ClassNodup (swapSeatAssignments "T4" staleClassroom 0 1 TimeMode.weekday) ∧
      ClassNodup (clearSeat "T4" staleClassroom 0 TimeMode.weekday) ∧
      ClassNodup (placeStudentInSeat "T4" staleClassroom "i3" 0 TimeMode.weekday) ∧
      ClassNodup (rotateSeatsOnce "T4" staleClassroom TimeMode.weekday) ∧
      ClassNodup (randomizeSeats (fun _ => 0) "T4" staleClassroom TimeMode.weekday)) :=
  ⟨⟨by decide, by decide, by decide⟩,
    seat_uniqueness_ops ["n1", "n2"] (fun _ => 0) "T4" staleClassroom ["E", "F"]
      LayoutMode.GROUPS 0 1 "i3" TimeMode.weekday (by decide) (by decide) (by decide)⟩

theorem setCfg_students (c : Classroom) (tm : TimeMode) (cfg : TimeModeConfig) :
    (setCfg c tm cfg).students = c.students := by
  cases tm <;> rfl

theorem centerPos_bounds (w k L : Nat) (hw : 1 ≤ w) (hL : L ≤ w) (hk : k < L) :
    0 ≤ centerPos (((w - 1) / 2 : Nat) : Int) ((((w - 1) / 2 : Nat) : Int) + 1) true k ∧
      centerPos (((w - 1) / 2 : Nat) : Int) ((((w - 1) / 2 : Nat) : Int) + 1) true k <
        (w : Int) := by
  by_cases h : k % 2 = 0
  · simp [centerPos, h]
    omega
  · simp [centerPos, h]
    omega

/-- Every id of a batch that fits the row (`ids.length ≤ w`) is placed by
`placeCentered` at some in-row offset and survives to the end of the loop. -/
theorem placeCentered_mem (seats : List (Option String)) (ids : List String)
    (s w : Nat) (hlen : s + w ≤ seats.length) (hI : ids.length ≤ w) (hw : 1 ≤ w)
    (x : String) (hx : x ∈ ids) :
    ∃ p : Nat, p < w ∧ (placeCentered seats ids s w)[s + p]? = some (some x) := by
  obtain ⟨⟨k, hk⟩, hget⟩ := List.mem_iff_get.1 hx
  have hb := centerPos_bounds w k ids.length hw hI hk
  have hland := placeCenteredAux_lands ids seats s w (((w - 1) / 2 : Nat) : Int)
    ((((w - 1) / 2 : Nat) : Int) + 1) true hlen (by omega) (by omega)
    (by simp; omega) (by simp; omega) k hk
  refine ⟨(centerPos (((w - 1) / 2 : Nat) : Int) ((((w - 1) / 2 : Nat) : Int) + 1)
      true k).toNat, by omega, ?_⟩
  rw [placeCentered_eq_aux, centerLeft_cast w hw, hland, hget]

/-- `placeCentered` never writes below its row start. -/
theorem placeCentered_frame_lt (seats : List (Option String)) (ids : List String)
    (s w i : Nat) (hi : i < s) :
    (placeCentered seats ids s w)[i]? = seats[i]? := by
  rw [placeCentered_eq_aux]
  exact placeCenteredAux_get_untouched seats ids s w _ _ true i
    (fun c h0 h1 => by omega) (fun c h0 h1 => by omega)

theorem mem_filterMap_id (l : List (Option String)) (x : String) :
    x ∈ l.filterMap id ↔ some x ∈ l := by
  simp [List.mem_filterMap]

theorem truthyIds_mem (l : List (Option String)) (x : String) (hx : some x ∈ l)
    (hne : x ≠ "") : x ∈ truthyIds l := by
  unfold truthyIds
  refine List.mem_filterMap.2 ⟨some x, hx, ?_⟩
  simp [truthyStr, hne]

theorem sliceOf_mem (seats : List (Option String)) (st len p : Nat) (hp : p < len)
    (x : Option String) (hx : seats[st + p]? = some x) :
    x ∈ sliceOf seats st len := by
  unfold sliceOf
  refine List.mem_map.2 ⟨p, List.mem_range.2 hp, ?_⟩
  rw [List.getD_eq_getElem?_getD, hx]
  rfl

theorem buildSeats_mem (ids : List String) (cap : Nat) (h : ids.length ≤ cap)
    (x : String) (hx : x ∈ ids) : x ∈ (buildSeatsFromOrder ids cap).filterMap id := by
  rw [buildSeatsFromOrder_filterMap, List.take_of_length_le h]
  exact hx

/-- In the grid layouts the reconciled seats hold the entire roster whenever it
fits the layout's capacity. -/
theorem withLayout_fm_mem_nonArc (config : TimeModeConfig) (mode : LayoutMode)
    (students : List Student) (s : Student) (hs : s ∈ students)
    (hcap : students.length ≤ (getLayoutMetrics mode students.length).capacity)
    (hmode : mode ≠ LayoutMode.ARC) :
    s.id ∈ (withLayout config mode students).seats.filterMap id := by
  have hlen : (getOrderedStudentIds students config.seats).length ≤
      (getLayoutMetrics mode students.length).capacity :=
    le_trans (getOrderedStudentIds_length_le _ _) hcap
  have hmm := getOrderedStudentIds_mem students config.seats s hs
  cases mode with
  | ARC => exact absurd rfl hmode
  | GROUPS =>
    show s.id ∈ (buildSeatsFromOrder (getOrderedStudentIds students config.seats)
      (getLayoutMetrics LayoutMode.GROUPS students.length).capacity).filterMap id
    exact buildSeats_mem _ _ hlen _ hmm
  | THREE_ROWS =>
    show s.id ∈ (buildSeatsFromOrder (getOrderedStudentIds students config.seats)
      (getLayoutMetrics LayoutMode.THREE_ROWS students.length).capacity).filterMap id
    exact buildSeats_mem _ _ hlen _ hmm

/-- The ARC double placement: first-row ids land below offset 18 and survive the
second-row placement; second-row ids land at 18-plus offsets. -/
theorem placeTwice_mem (g : List (Option String)) (l1 l2 : List String)
    (hg : g.length = 36) (h1 : l1.length ≤ 18) (h2 : l2.length ≤ 18) (x : String) :
    (x ∈ l1 → ∃ p : Nat, p < 18 ∧
      (placeCentered (placeCentered g l1 0 18) l2 18 18)[0 + p]? = some (some x)) ∧
    (x ∈ l2 → ∃ p : Nat, p < 18 ∧
      (placeCentered (placeCentered g l1 0 18) l2 18 18)[18 + p]? = some (some x)) := by
  constructor
  · intro hx
    obtain ⟨p, hp, hget⟩ := placeCentered_mem g l1 0 18 (by omega) h1 (by omega) x hx
    refine ⟨p, hp, ?_⟩
    rw [placeCentered_frame_lt _ _ 18 18 (0 + p) (by omega)]
    exact hget
  · intro hx
    have hlen1 : (placeCentered g l1 0 18).length = 36 := by
      rw [placeCentered_length]; exact hg
    exact placeCentered_mem (placeCentered g l1 0 18) l2 18 18 (by omega) h2
      (by omega) x hx

/-- The ARC rotation keeps every roster member seated (roster fits the 36-seat
arc and ids are truthy). -/
theorem rotateArcLayout_mem (config : TimeModeConfig) (students : List Student)
    (s : Student) (hs : s ∈ students) (hne : s.id ≠ "") (hcap : students.length ≤ 36) :
    some s.id ∈ (rotateArcLayout config students).seats := by
  have hNlen : (withLayout config LayoutMode.ARC students).seats.length = 36 :=
    withLayout_arc_len config students
  have hordlen : (getOrderedStudentIds students config.seats).length ≤ 36 :=
    le_trans (getOrderedStudentIds_length_le _ _) hcap
  have hmm := getOrderedStudentIds_mem students config.seats s hs
  have hN : (withLayout config LayoutMode.ARC students).seats =
      placeCentered (placeCentered (createEmptySeats 36)
        ((getOrderedStudentIds students config.seats).take
          (((getOrderedStudentIds students config.seats).length + 1) / 2)) 0 18)
        ((getOrderedStudentIds students config.seats).drop
          (((getOrderedStudentIds students config.seats).length + 1) / 2)) 18 18 := rfl
  have happ : s.id ∈ (getOrderedStudentIds students config.seats).take
        (((getOrderedStudentIds students config.seats).length + 1) / 2) ++
      (getOrderedStudentIds students config.seats).drop
        (((getOrderedStudentIds students config.seats).length + 1) / 2) := by
    rw [List.take_append_drop]
    exact hmm
  have h1len : ((getOrderedStudentIds students config.seats).take
      (((getOrderedStudentIds students config.seats).length + 1) / 2)).length ≤ 18 := by
    rw [List.length_take]; omega
  have h2len : ((getOrderedStudentIds students config.seats).drop
      (((getOrderedStudentIds students config.seats).length + 1) / 2)).length ≤ 18 := by
    rw [List.length_drop]; omega
  have hpt := placeTwice_mem (createEmptySeats 36)
    ((getOrderedStudentIds students config.seats).take
      (((getOrderedStudentIds students config.seats).length + 1) / 2))
    ((getOrderedStudentIds students config.seats).drop
      (((getOrderedStudentIds students config.seats).length + 1) / 2))
    (by simp [createEmptySeats]) h1len h2len s.id
  have hrow : (∃ p : Nat, p < 18 ∧
        (withLayout config LayoutMode.ARC students).seats[0 + p]? = some (some s.id)) ∨
      ∃ p : Nat, p < 18 ∧
        (withLayout config LayoutMode.ARC students).seats[18 + p]? = some (some s.id) := by
    rw [hN]
    rcases List.mem_append.1 happ with h | h
    · exact Or.inl (hpt.1 h)
    · exact Or.inr (hpt.2 h)
  have hslice : s.id ∈ truthyIds (sliceOf
        (withLayout config LayoutMode.ARC students).seats (0 * 18) 18) ∨
      s.id ∈ truthyIds (sliceOf
        (withLayout config LayoutMode.ARC students).seats (1 * 18) 18) := by
    rcases hrow with ⟨p, hp, hget⟩ | ⟨p, hp, hget⟩
    · exact Or.inl (truthyIds_mem _ _
        (sliceOf_mem _ (0 * 18) 18 p hp _ (by simpa using hget)) hne)
    · exact Or.inr (truthyIds_mem _ _
        (sliceOf_mem _ (1 * 18) 18 p hp _ (by simpa using hget)) hne)
  have ht0 : (truthyIds (sliceOf
      (withLayout config LayoutMode.ARC students).seats (0 * 18) 18)).length ≤ 18 := by
    have ha := (truthyIds_sublist (sliceOf
      (withLayout config LayoutMode.ARC students).seats (0 * 18) 18)).length_le
    have hb := List.length_filterMap_le id (sliceOf
      (withLayout config LayoutMode.ARC students).seats (0 * 18) 18)
    have hc := sliceOf_length (withLayout config LayoutMode.ARC students).seats (0 * 18) 18
    omega
  have ht1 : (truthyIds (sliceOf
      (withLayout config LayoutMode.ARC students).seats (1 * 18) 18)).length ≤ 18 := by
    have ha := (truthyIds_sublist (sliceOf
      (withLayout config LayoutMode.ARC students).seats (1 * 18) 18)).length_le
    have hb := List.length_filterMap_le id (sliceOf
      (withLayout config LayoutMode.ARC students).seats (1 * 18) 18)
    have hc := sliceOf_length (withLayout config LayoutMode.ARC students).seats (1 * 18) 18
    omega
  show some s.id ∈ rotateArcRowInto (withLayout config LayoutMode.ARC students).seats
    (rotateArcRowInto (withLayout config LayoutMode.ARC students).seats
      (createEmptySeats (withLayout config LayoutMode.ARC students).seats.length) 0) 1
  obtain ⟨ids0, he0, hp0⟩ := rotateArcRowInto_eq
    (withLayout config LayoutMode.ARC students).seats
    (createEmptySeats (withLayout config LayoutMode.ARC students).seats.length) 0
  obtain ⟨ids1, he1, hp1⟩ := rotateArcRowInto_eq
    (withLayout config LayoutMode.ARC students).seats
    (rotateArcRowInto (withLayout config LayoutMode.ARC students).seats
      (createEmptySeats (withLayout config LayoutMode.ARC students).seats.length) 0) 1
  rw [he1, he0]
  have hi0 : ids0.length ≤ 18 := by rw [hp0.length_eq]; exact ht0
  have hi1 : ids1.length ≤ 18 := by rw [hp1.length_eq]; exact ht1
  rcases hslice with h | h
  · obtain ⟨q, hq, hget⟩ := placeCentered_mem
      (createEmptySeats (withLayout config LayoutMode.ARC students).seats.length)
      ids0 (0 * 18) 18 (by simp [createEmptySeats]; omega) hi0 (by omega) s.id
      (hp0.mem_iff.2 h)
    have hfin : (placeCentered (placeCentered
        (createEmptySeats (withLayout config LayoutMode.ARC students).seats.length)
        ids0 (0 * 18) 18) ids1 (1 * 18) 18)[0 * 18 + q]? = some (some s.id) := by
      rw [placeCentered_frame_lt _ _ (1 * 18) 18 (0 * 18 + q) (by omega)]
      exact hget
    exact List.getElem?_mem hfin
  · have hlen1 : (placeCentered
        (createEmptySeats (withLayout config LayoutMode.ARC students).seats.length)
        ids0 (0 * 18) 18).length = 36 := by
      rw [placeCentered_length]
      simp [createEmptySeats, hNlen]
    obtain ⟨q, hq, hget⟩ := placeCentered_mem (placeCentered
        (createEmptySeats (withLayout config LayoutMode.ARC students).seats.length)
        ids0 (0 * 18) 18) ids1 (1 * 18) 18 (by rw [hlen1]) hi1 (by omega) s.id
      (hp1.mem_iff.2 h)
    exact List.getElem?_mem hget

/-- Claim C9 (implicit): when the chosen config has at least two occupied seats,
the roster fits that layout's capacity and every student id is non-empty,
`rotateSeatsOnce` re-seats the entire roster: `getUnassignedStudents` is empty
afterwards, so a student cleared from a seat beforehand is seated again. -/
theorem rotation_reseats_roster (nowT : String) (c : Classroom) (tm : TimeMode)
    (h2 : 2 ≤ getAssignedCount (getCfg c tm))
    (hcap : c.students.length ≤
      (getLayoutMetrics (getCfg c tm).layoutMode c.students.length).capacity)
    (hids : ∀ s ∈ c.students, s.id ≠ "") :
    getUnassignedStudents (rotateSeatsOnce nowT c tm) tm = [] := by
  simp only [rotateSeatsOnce]
  rw [if_neg (by omega)]
  simp only [getUnassignedStudents, getCfg_setCfg, setCfg_students]
  rw [List.filter_eq_nil_iff]
  intro s hs
  have hne := hids s hs
  cases hmode : (getCfg c tm).layoutMode with
  | GROUPS =>
    rw [hmode] at hcap
    show ¬((!((truthyIds (rotateGroupLayout (getCfg c tm) c.students).seats).contains
      s.id)) = true)
    have hmem : s.id ∈ truthyIds (rotateGroupLayout (getCfg c tm) c.students).seats := by
      refine truthyIds_mem _ _ ((mem_filterMap_id _ _).1 ?_) hne
      exact ((rotateGroupLayout_fm_perm (getCfg c tm) c.students).mem_iff).2
        (withLayout_fm_mem_nonArc (getCfg c tm) LayoutMode.GROUPS c.students s hs hcap
          (by decide))
    simpa using hmem
  | THREE_ROWS =>
    rw [hmode] at hcap
    show ¬((!((truthyIds (rotateThreeRows (getCfg c tm) c.students).seats).contains
      s.id)) = true)
    have hmem : s.id ∈ truthyIds (rotateThreeRows (getCfg c tm) c.students).seats := by
      refine truthyIds_mem _ _ ((mem_filterMap_id _ _).1 ?_) hne
      exact ((rotateThreeRows_fm_perm (getCfg c tm) c.students).mem_iff).2
        (withLayout_fm_mem_nonArc (getCfg c tm) LayoutMode.THREE_ROWS c.students s hs hcap
          (by decide))
    simpa using hmem
  | ARC =>
    rw [hmode] at hcap
    show ¬((!((truthyIds (rotateArcLayout (getCfg c tm) c.students).seats).contains
      s.id)) = true)
    have hmem : s.id ∈ truthyIds (rotateArcLayout (getCfg c tm) c.students).seats :=
      truthyIds_mem _ _ (rotateArcLayout_mem (getCfg c tm) c.students s hs hne hcap) hne
    simpa using hmem

/-- Witness for C9: the weekday config of `staleClassroom` (GROUPS layout, both
roster members seated) satisfies the hypotheses, and the conclusion holds. -/
theorem rotation_reseats_roster_witness :
    (2 ≤ getAssignedCount (getCfg staleClassroom TimeMode.weekday) ∧
      staleClassroom.students.length ≤
        (getLayoutMetrics (getCfg staleClassroom TimeMode.weekday).layoutMode
          staleClassroom.students.length).capacity ∧
      ∀ s ∈ staleClassroom.students, s.id ≠ "") ∧
    getUnassignedStudents (rotateSeatsOnce "T9" staleClassroom TimeMode.weekday)
      TimeMode.weekday = [] :=
  ⟨⟨by decide, by decide, by decide⟩,
    rotation_reseats_roster "T9" staleClassroom TimeMode.weekday (by decide) (by decide)
      (by decide)⟩

theorem seatsFromRoster_spec (cfg : TimeModeConfig) (students : List Student)
    (h : seatsFromRoster cfg students = true) :
    ∀ sid, some sid ∈ cfg.seats → sid ∈ students.map (fun s => s.id) := by
  intro sid hsid
  have h2 := List.all_eq_true.1 h sid ((mem_filterMap_id _ _).2 hsid)
  exact List.mem_of_elem_eq_true h2

theorem decodeSeats_encode (ids : List String) (seats : List (Option String))
    (h : ∀ sid, some sid ∈ seats → sid ∈ ids) :
    (seats.map encodeSeat).map (fun seat =>
      match seat with
      | Json.str s2 => if ids.contains s2 then some s2 else none
      | _ => none) = seats := by
  induction seats with
  | nil => rfl
  | cons a rest ih =>
    simp only [List.map_cons]
    rw [ih (fun sid hsid => h sid (List.mem_cons_of_mem _ hsid))]
    cases a with
    | none => rfl
    | some s2 =>
      have hc : ids.contains s2 = true :=
        List.elem_eq_true_of_mem (h s2 (List.mem_cons_self _ _))
      show (if ids.contains s2 then some s2 else none) :: rest = some s2 :: rest
      rw [hc]
      rfl

/-- Decoding an encoded config under its own roster is the identity (the
fallback mode `GROUPS` is the one `normalizeClassroom` passes). -/
theorem normalizeTimeModeConfig_encode (students : List Student) (cfg : TimeModeConfig)
    (h : ∀ sid, some sid ∈ cfg.seats → sid ∈ students.map (fun s => s.id)) :
    normalizeTimeModeConfig (some (encodeConfig cfg)) students LayoutMode.GROUPS =
      some cfg := by
  obtain ⟨lm, rows, cols, seats, rc, wl, ct⟩ := cfg
  have hseats := decodeSeats_encode (students.map (fun s => s.id)) seats h
  cases lm with
  | GROUPS =>
    conv_rhs => rw [← hseats]
    rfl
  | THREE_ROWS =>
    conv_rhs => rw [← hseats]
    rfl
  | ARC =>
    conv_rhs => rw [← hseats]
    rfl

theorem decodeStudents_encode (students : List Student) :
    (students.map encodeStudent).filterMap decodeStudent = students := by
  induction students with
  | nil => rfl
  | cons s rest ih =>
    simp only [List.map_cons, List.filterMap_cons,
      show decodeStudent (encodeStudent s) = some s from rfl, ih]

/-- Decoding an encoded classroom is the identity exactly on classrooms in
normal form: trimmed non-empty name, parseable `updatedAt`, seats referencing
only the roster, and both configs fixed points of the layout reconciliation. -/
theorem normalizeClassroom_encode (validDate : String → Bool) (nowT : String)
    (c : Classroom) (hname : jsTrim c.name = c.name) (hne : c.name ≠ "")
    (hdate : validDate c.updatedAt = true)
    (hwd : seatsFromRoster c.weekday c.students = true)
    (hwe : seatsFromRoster c.weekend c.students = true)
    (hfix : normalizeClassroomLayout (normalizeClassroomLayout c TimeMode.weekday)
      TimeMode.weekend = c) :
    normalizeClassroom validDate nowT (encodeClassroom c) = some c := by
  show (if ((c.students.map encodeStudent).filterMap decodeStudent).length = 0 ∧
      (true : Bool) = false ∧ (true : Bool) = false ∧ (false : Bool) = true then
      migrateV2Classroom validDate nowT (encodeClassroom c)
        ((c.students.map encodeStudent).filterMap decodeStudent)
    else
      some (normalizeClassroomLayout (normalizeClassroomLayout
        { id := c.id
          name := if jsTrim c.name = "" then "未命名班级" else jsTrim c.name
          students := (c.students.map encodeStudent).filterMap decodeStudent
          campus := c.campus
          building := c.building
          room := c.room
          sideNotes := c.sideNotes
          updatedAt := if validDate c.updatedAt then c.updatedAt else nowT
          weekday := (normalizeTimeModeConfig (some (encodeConfig c.weekday))
            ((c.students.map encodeStudent).filterMap decodeStudent)
            LayoutMode.GROUPS).getD (createDefaultTimeModeConfig
              ((c.students.map encodeStudent).filterMap decodeStudent))
          weekend := (normalizeTimeModeConfig (some (encodeConfig c.weekend))
            ((c.students.map encodeStudent).filterMap decodeStudent)
            LayoutMode.GROUPS).getD (createDefaultTimeModeConfig
              ((c.students.map encodeStudent).filterMap decodeStudent)) }
        TimeMode.weekday) TimeMode.weekend)) = some c
  rw [if_neg (by simp)]
  rw [decodeStudents_encode c.students]
  rw [normalizeTimeModeConfig_encode c.students c.weekday (seatsFromRoster_spec _ _ hwd),
    normalizeTimeModeConfig_encode c.students c.weekend (seatsFromRoster_spec _ _ hwe)]
  rw [hname, if_neg hne, if_pos hdate]
  rw [show ({ id := c.id
              name := c.name
              students := c.students
              campus := c.campus
              building := c.building
              room := c.room
              sideNotes := c.sideNotes
              updatedAt := c.updatedAt
              weekday := (some c.weekday).getD (createDefaultTimeModeConfig c.students)
              weekend := (some c.weekend).getD (createDefaultTimeModeConfig c.students) } :
    Classroom) = c from rfl]
  rw [hfix]

theorem filterMap_encode_id (validDate : String → Bool) (nowT : String)
    (cls : List Classroom)
    (h : ∀ c ∈ cls, normalizeClassroom validDate nowT (encodeClassroom c) = some c) :
    (cls.map encodeClassroom).filterMap (normalizeClassroom validDate nowT) = cls := by
  induction cls with
  | nil => rfl
  | cons c rest ih =>
    simp only [List.map_cons, List.filterMap_cons, h c (List.mem_cons_self _ _),
      ih (fun a ha => h a (List.mem_cons_of_mem _ ha))]

/-- Claim C1 (amended): the persistence round trip
`normalizeState (parse (serialize st)) = st` holds exactly on normal-form
states: version 3, an `activeClassroomId` consistent with the classroom list,
and every classroom with trimmed non-empty name, parseable `updatedAt`,
roster-only seats, and configs fixed under the layout reconciliation. -/
theorem normalizeState_roundtrip (validDate : String → Bool) (nowT : String)
    (st : AppState) (hver : st.version = 3)
    (hactive : match st.activeClassroomId with
      | some aid => st.classrooms.any (fun c2 => c2.id = aid) = true
      | none => st.classrooms = [])
    (hcls : ∀ c ∈ st.classrooms,
      jsTrim c.name = c.name ∧ c.name ≠ "" ∧ validDate c.updatedAt = true ∧
      seatsFromRoster c.weekday c.students = true ∧
      seatsFromRoster c.weekend c.students = true ∧
      normalizeClassroomLayout (normalizeClassroomLayout c TimeMode.weekday)
        TimeMode.weekend = c) :
    normalizeState validDate nowT (encodeState st) = some st := by
  obtain ⟨ver, cls, aid, atm⟩ := st
  have hencs : ∀ c ∈ cls,
      normalizeClassroom validDate nowT (encodeClassroom c) = some c := by
    intro c hc
    obtain ⟨h1, h2, h3, h4, h5, h6⟩ := hcls c hc
    exact normalizeClassroom_encode validDate nowT c h1 h2 h3 h4 h5 h6
  have hcl := filterMap_encode_id validDate nowT cls hencs
  replace hver : ver = 3 := hver
  subst hver
  cases aid with
  | none =>
    replace hactive : cls = [] := hactive
    cases atm with
    | weekday =>
      show some ({ version := 3
                   classrooms := (cls.map encodeClassroom).filterMap
                     (normalizeClassroom validDate nowT)
                   activeClassroomId := (((cls.map encodeClassroom).filterMap
                     (normalizeClassroom validDate nowT)).head?).map (fun c2 => c2.id)
                   activeTimeMode := TimeMode.weekday } : AppState) =
        some ({ version := 3
                classrooms := cls
                activeClassroomId := none
                activeTimeMode := TimeMode.weekday } : AppState)
      rw [hcl, hactive]
      rfl
    | weekend =>
      show some ({ version := 3
                   classrooms := (cls.map encodeClassroom).filterMap
                     (normalizeClassroom validDate nowT)
                   activeClassroomId := (((cls.map encodeClassroom).filterMap
                     (normalizeClassroom validDate nowT)).head?).map (fun c2 => c2.id)
                   activeTimeMode := TimeMode.weekend } : AppState) =
        some ({ version := 3
                classrooms := cls
                activeClassroomId := none
                activeTimeMode := TimeMode.weekend } : AppState)
      rw [hcl, hactive]
      rfl
  | some a =>
    replace hactive : cls.any (fun c2 => c2.id = a) = true := hactive
    cases atm with
    | weekday =>
      show some ({ version := 3
                   classrooms := (cls.map encodeClassroom).filterMap
                     (normalizeClassroom validDate nowT)
                   activeClassroomId :=
                     if ((cls.map encodeClassroom).filterMap
                         (normalizeClassroom validDate nowT)).any
                         (fun c2 => c2.id = a) then some a
                     else (((cls.map encodeClassroom).filterMap
                       (normalizeClassroom validDate nowT)).head?).map (fun c2 => c2.id)
                   activeTimeMode := TimeMode.weekday } : AppState) =
        some ({ version := 3
                classrooms := cls
                activeClassroomId := some a
                activeTimeMode := TimeMode.weekday } : AppState)
      rw [hcl, if_pos hactive]
    | weekend =>
      show some ({ version := 3
                   classrooms := (cls.map encodeClassroom).filterMap
                     (normalizeClassroom validDate nowT)
                   activeClassroomId :=
                     if ((cls.map encodeClassroom).filterMap
                         (normalizeClassroom validDate nowT)).any
                         (fun c2 => c2.id = a) then some a
                     else (((cls.map encodeClassroom).filterMap
                       (normalizeClassroom validDate nowT)).head?).map (fun c2 => c2.id)
                   activeTimeMode := TimeMode.weekend } : AppState) =
        some ({ version := 3
                classrooms := cls
                activeClassroomId := some a
                activeTimeMode := TimeMode.weekend } : AppState)
      rw [hcl, if_pos hactive]

/-- Claim C1 counterexample: `roundTripCex` is produced purely by public
operations (createClassroom, replaceStudents, clearSeat), yet normalizing its
serialization re-seats the cleared student, so the round trip is not the
identity on it (with the most permissive date validator, isolating the seat
compaction as the cause). -/
theorem normalizeState_not_roundtrip :
    normalizeState (fun _ => true) "TN" (encodeState roundTripCex) ≠
      some roundTripCex := by
  decide

/-- Witness for C1's amended round-trip theorem at a concrete reachable
normal-form state. -/
theorem normalizeState_roundtrip_witness :
    (roundTripWitState.version = 3 ∧
      roundTripWitState.classrooms.any (fun c2 => c2.id = "cid") = true ∧
      ∀ c ∈ roundTripWitState.classrooms,
        jsTrim c.name = c.name ∧ c.name ≠ "" ∧ (fun _ => true) c.updatedAt = true ∧
        seatsFromRoster c.weekday c.students = true ∧
        seatsFromRoster c.weekend c.students = true ∧
        normalizeClassroomLayout (normalizeClassroomLayout c TimeMode.weekday)
          TimeMode.weekend = c) ∧
    normalizeState (fun _ => true) "TN" (encodeState roundTripWitState) =
      some roundTripWitState :=
  ⟨⟨by decide, by decide, by decide⟩,
    normalizeState_roundtrip (fun _ => true) "TN" roundTripWitState (by decide)
      (show roundTripWitState.classrooms.any (fun c2 => c2.id = "cid") = true by decide)
      (by decide)⟩

/-- Claim C7 counterexample: the empty JSON object is parseable, yet
`parseBackup` rejects it (returns null), because `classrooms` is not an
array — so rejection is not confined to unparseable text. -/
theorem parseBackup_parseable_null :
    parseBackup (fun _ => true) "TN" (some (Json.obj [])) = none := rfl

/-- Claim C7 (amended): `parseBackup` succeeds exactly when the text parsed
and the parsed value is an object (or array) whose `classrooms` property is an
array; only then are invalid fields merged with defaults. -/
theorem parseBackup_some_iff (validDate : String → Bool) (nowT : String)
    (parsed : Option Json) :
    (parseBackup validDate nowT parsed).isSome = true ↔
      ∃ j, parsed = some j ∧ jsObjectLike j = true ∧
        ∃ l, jsGet j "classrooms" = some (Json.arr l) := by
  cases parsed with
  | none => simp [parseBackup]
  | some j =>
    show (normalizeState validDate nowT j).isSome = true ↔ _
    constructor
    · intro h
      by_cases hobj : jsObjectLike j = true
      · refine ⟨j, rfl, hobj, ?_⟩
        revert h
        simp only [normalizeState]
        rw [if_pos hobj]
        cases hget : jsGet j "classrooms" with
        | none => intro h; simp at h
        | some j2 =>
          cases j2 with
          | arr l => intro h; exact ⟨l, rfl⟩
          | null => intro h; simp at h
          | bool b => intro h; simp at h
          | num n => intro h; simp at h
          | str s2 => intro h; simp at h
          | obj fields => intro h; simp at h
      · exfalso
        revert h
        simp only [normalizeState]
        rw [if_neg hobj]
        simp
    · rintro ⟨j2, hj, hobj, l, hget⟩
      have hjj : j = j2 := Option.some.inj hj
      subst hjj
      simp only [normalizeState]
      rw [if_pos hobj, hget]
      rfl

end CST
